import Mathlib

/-!
Verification of the fpga_synth Verilog synthesis pipeline.

This file contains a shallow embedding, in Lean 4, of the parts of the
fpga_synth Python code base that the checked claims are about:

* `Parser.resolve_number` (src/hdl_parser/parser.py),
* the lexer `Lexer.tokenize` (src/hdl_parser/lexer.py) together with the
  token-type table of src/hdl_parser/tokens.py,
* the netlist graph model (src/ir/netlist.py): pins, nets, cells, the
  containing `Netlist`, `connect` and `remove_cell`,
* the elaborator (src/hdl_parser/elaborator.py) for the module items the
  claims mention,
* the optimizer passes (src/ir/optimizer.py), and
* the analyzer's `critical_path_depth` (src/ir/analyzer.py).

Python objects are modelled by an explicit heap: association lists from
numeric ids to pin/net/cell records.  Mutation becomes functional update of
the heap.  Python `dict`s keep insertion order, which the association lists
reproduce.  Functions that can raise a Python exception, or whose Python
loops are modelled with fuel, return `Option`: a `none` result means the
Python run would raise, or the fuel bound was reached; every theorem below
asserts a `some` result, so no theorem relies on the fuel escape hatch.
-/

namespace Spec2Proof

/-! ## Association-list helpers (Python dict and object heap) -/

/-- Lookup in an insertion-ordered association list (Python `d[k]` read). -/
def lookupA {κ α : Type} [DecidableEq κ] : List (κ × α) → κ → Option α
  | [], _ => none
  | (k2, v) :: rest, k => if k2 = k then some v else lookupA rest k

/-- Write `d[k] = v` with Python dict semantics: update in place when the key
is present, append at the end otherwise. -/
def setA {κ α : Type} [DecidableEq κ] : List (κ × α) → κ → α → List (κ × α)
  | [], k, v => [(k, v)]
  | (k2, w) :: rest, k, v =>
      if k2 = k then (k2, v) :: rest else (k2, w) :: setA rest k v

/-- Delete `del d[k]`, keeping the order of the remaining entries. -/
def eraseA {κ α : Type} [DecidableEq κ] : List (κ × α) → κ → List (κ × α)
  | [], _ => []
  | (k2, v) :: rest, k => if k2 = k then rest else (k2, v) :: eraseA rest k

theorem lookupA_setA {κ α : Type} [DecidableEq κ] (l : List (κ × α)) (k k2 : κ) (v : α) :
    lookupA (setA l k v) k2 = if k = k2 then some v else lookupA l k2 := by
  induction l with
  | nil =>
      by_cases h : k = k2 <;> simp [setA, lookupA, h]
  | cons hd tl ih =>
      obtain ⟨k3, w⟩ := hd
      by_cases h3 : k3 = k
      · subst h3
        by_cases h : k3 = k2 <;> simp [setA, lookupA, h]
      · by_cases h : k3 = k2
        · subst h
          have hk : ¬ k = k3 := fun hh => h3 hh.symm
          simp [setA, lookupA, h3, hk]
        · simp [setA, lookupA, h3, h, ih]

/-! ## Numeric literal resolution (Parser.resolve_number, src/hdl_parser/parser.py lines 72-102)

Literal strings are modelled as `List Char`.  `quoteChar` is the ASCII
apostrophe separating size and base. -/

/-- The ASCII apostrophe character that separates size and base. -/
def quoteChar : Char := Char.ofNat 39

/-- Models `raw.replace("_", "")`. -/
def stripUnderscores : List Char → List Char
  | [] => []
  | c :: rest => if c = '_' then stripUnderscores rest else c :: stripUnderscores rest

/-- Models `raw.split("'", 1)` on a string known to contain an apostrophe:
returns the part before the first apostrophe and the part after it, or
`none` when there is no apostrophe (the Python code only splits after an
`"'" in raw` test, which `resolve_number` below performs). -/
def splitQuote : List Char → Option (List Char × List Char)
  | [] => none
  | c :: rest =>
      if c = quoteChar then some ([], rest)
      else match splitQuote rest with
        | some (a, b) => some (c :: a, b)
        | none => none

/-- Models Python `str.isdigit` on the ASCII characters that occur in
Verilog sources: the decimal digits 0-9 (ASCII 48-57). -/
def pyIsDigit (c : Char) : Bool := decide (48 ≤ c.toNat ∧ c.toNat ≤ 57)

/-- Value of one digit character, as Python `int(·, base)` accepts it
(decimal digits plus the hexadecimal letters in either case). -/
def digitVal (c : Char) : Option Nat :=
  if 48 ≤ c.toNat ∧ c.toNat ≤ 57 then some (c.toNat - 48)
  else if 97 ≤ c.toNat ∧ c.toNat ≤ 102 then some (c.toNat - 97 + 10)
  else if 65 ≤ c.toNat ∧ c.toNat ≤ 70 then some (c.toNat - 65 + 10)
  else none

/-- Accumulating digit-string value in a base; `none` models the
`ValueError` Python raises on a character that is not a digit of the base. -/
def digitsVal (base : Nat) : List Char → Nat → Option Nat
  | [], acc => some acc
  | c :: rest, acc =>
      match digitVal c with
      | some d => if d < base then digitsVal base rest (acc * base + d) else none
      | none => none

/-- Models Python `int(s, base)` on an underscore-free string: an optional
sign followed by a non-empty run of digits of the base.  `none` models
`ValueError`. -/
def pyInt (base : Nat) (cs : List Char) : Option Int :=
  match cs with
  | [] => none
  | c :: rest =>
      if c = '-' then
        match rest with
        | [] => none
        | _ => (digitsVal base rest 0).map (fun n => -(n : Int))
      else if c = '+' then
        match rest with
        | [] => none
        | _ => (digitsVal base rest 0).map (fun n => (n : Int))
      else (digitsVal base cs 0).map (fun n => (n : Int))

/-- Embeds `Parser.resolve_number` (src/hdl_parser/parser.py lines 72-102).
Returns `(value, width, signed)`; `none` models a `ValueError` escaping from
`int(...)`. -/
def resolve_number (raw0 : List Char) : Option (Int × Int × Bool) :=
  let raw := stripUnderscores raw0
  match splitQuote raw with
  | some (size_str, rest0) =>
      let sr : Bool × List Char :=
        match rest0 with
        | c :: tail => if c.toLower = 's' then (true, tail) else (false, rest0)
        | [] => (false, [])
      let signed := sr.1
      let rest := sr.2
      match rest with
      | [] => some (0, 32, false)
      | bc :: tail =>
          let base_char := bc.toLower
          let digits0 := if tail.length > 0 then tail else ['0']
          let digits := digits0.map
            (fun c => if c = 'x' ∨ c = 'X' ∨ c = 'z' ∨ c = 'Z' then '0' else c)
          let base : Nat :=
            if base_char = 'b' then 2
            else if base_char = 'o' then 8
            else if base_char = 'd' then 10
            else if base_char = 'h' then 16
            else 10
          match (match size_str with | [] => some (32 : Int) | _ => pyInt 10 size_str) with
          | none => none
          | some width =>
              match (match digits with | [] => some (0 : Int) | _ => pyInt base digits) with
              | none => none
              | some value => some (value, width, signed)
  | none => (pyInt 10 raw).map (fun v => (v, 32, false))

/-! ## Claim C5: behaviour of the numeric literal resolver -/

theorem stripUnderscores_id (cs : List Char) (h : ∀ c ∈ cs, c ≠ '_') :
    stripUnderscores cs = cs := by
  induction cs with
  | nil => rfl
  | cons c rest ih =>
      have hc : c ≠ '_' := h c (List.mem_cons_self c rest)
      simp [stripUnderscores, hc, ih (fun d hd => h d (List.mem_cons_of_mem _ hd))]

theorem splitQuote_none (cs : List Char) (h : ∀ c ∈ cs, c ≠ quoteChar) :
    splitQuote cs = none := by
  induction cs with
  | nil => rfl
  | cons c rest ih =>
      have hc : c ≠ quoteChar := h c (List.mem_cons_self c rest)
      simp [splitQuote, hc, ih (fun d hd => h d (List.mem_cons_of_mem _ hd))]

theorem splitQuote_append (a b : List Char) (h : ∀ c ∈ a, c ≠ quoteChar) :
    splitQuote (a ++ quoteChar :: b) = some (a, b) := by
  induction a with
  | nil => simp [splitQuote]
  | cons c rest ih =>
      have hc : c ≠ quoteChar := h c (List.mem_cons_self c rest)
      simp [splitQuote, hc, ih (fun d hd => h d (List.mem_cons_of_mem _ hd))]

theorem digit_ne (c : Char) (h : 48 ≤ c.toNat ∧ c.toNat ≤ 57) :
    c ≠ '_' ∧ c ≠ quoteChar := by
  refine ⟨fun he => ?_, fun he => ?_⟩ <;> subst he <;> revert h <;> decide

theorem digitsVal_ten (cs : List Char) (acc : Nat)
    (h : ∀ c ∈ cs, 48 ≤ c.toNat ∧ c.toNat ≤ 57) :
    ∃ n, digitsVal 10 cs acc = some n := by
  induction cs generalizing acc with
  | nil => exact ⟨acc, rfl⟩
  | cons c rest ih =>
      have hc := h c (List.mem_cons_self c rest)
      have h1 : digitVal c = some (c.toNat - 48) := by simp [digitVal, hc.1, hc.2]
      have h2 : c.toNat - 48 < 10 := by omega
      obtain ⟨n, hn⟩ := ih (acc * 10 + (c.toNat - 48)) (fun d hd => h d (List.mem_cons_of_mem _ hd))
      exact ⟨n, by simp [digitsVal, h1, h2, hn]⟩

theorem pyInt_ten (cs : List Char) (hne : cs ≠ [])
    (h : ∀ c ∈ cs, 48 ≤ c.toNat ∧ c.toNat ≤ 57) :
    ∃ n, pyInt 10 cs = some n := by
  match cs, hne with
  | c :: rest, _ =>
    have hc := h c (List.mem_cons_self c rest)
    have hminus : c ≠ '-' := by intro he; subst he; revert hc; decide
    have hplus : c ≠ '+' := by intro he; subst he; revert hc; decide
    obtain ⟨n, hn⟩ := digitsVal_ten (c :: rest) 0 h
    exact ⟨(n : Int), by simp [pyInt, hminus, hplus, hn]⟩

theorem digitsVal_zeros (base : Nat) (hb : 0 < base) (ds : List Char)
    (h : ∀ c ∈ ds, c = '0') : digitsVal base ds 0 = some 0 := by
  induction ds with
  | nil => rfl
  | cons c rest ih =>
      have hc : c = '0' := h c (List.mem_cons_self _ _)
      subst hc
      have h0 : digitVal '0' = some 0 := by decide
      simpa [digitsVal, h0, hb] using ih (fun d hd => h d (List.mem_cons_of_mem _ hd))

theorem pyInt_zeros (base : Nat) (hb : 0 < base) (ds : List Char)
    (hne : ds ≠ []) (h : ∀ c ∈ ds, c = '0') : pyInt base ds = some 0 := by
  match ds, hne with
  | c :: rest, _ =>
    have hc : c = '0' := h c (List.mem_cons_self _ _)
    subst hc
    have hz := digitsVal_zeros base hb ('0' :: rest) h
    simp [pyInt, hz]

/-- Helper for claim C5: a sized literal whose digits are empty or consist
only of x/X/z/Z resolves to value 0 at the declared width, preserving the
signedness flag.  The decomposition of the literal into size, optional
signedness marker, base character and digits is given as a hypothesis on
`splitQuote`. -/
theorem resolve_number_sized_zero (raw size ds : List Char) (bc : Char) (sg : Bool)
    (hsplit : splitQuote (stripUnderscores raw)
      = some (size, (if sg then ['s'] else []) ++ bc :: ds))
    (hs : size ≠ []) (hsd : ∀ c ∈ size, 48 ≤ c.toNat ∧ c.toNat ≤ 57)
    (hbc : bc.toLower = 'b' ∨ bc.toLower = 'o' ∨ bc.toLower = 'd' ∨ bc.toLower = 'h')
    (hds : ∀ c ∈ ds, c = 'x' ∨ c = 'X' ∨ c = 'z' ∨ c = 'Z') :
    ∃ w, pyInt 10 size = some w ∧ resolve_number raw = some (0, w, sg) := by
  obtain ⟨w, hw⟩ := pyInt_ten size hs hsd
  refine ⟨w, hw, ?_⟩
  have hbs : ¬ bc.toLower = 's' := by
    rcases hbc with h | h | h | h <;> simp [h]
  have hbpos : 0 < (if bc.toLower = 'b' then 2 else if bc.toLower = 'o' then 8
      else if bc.toLower = 'd' then 10 else if bc.toLower = 'h' then 16 else (10 : Nat)) := by
    split_ifs <;> norm_num
  rcases ds with _ | ⟨d, dtail⟩
  · have hval := pyInt_zeros _ hbpos ['0'] (by simp)
      (by intro c hc; simp at hc; subst hc; rfl)
    rcases sg with _ | _ <;>
    · simp only [Bool.false_eq_true, if_false, if_true, List.nil_append,
        List.cons_append] at hsplit
      match size, hs with
      | s0 :: stail, _ =>
        simp [resolve_number, hsplit, hbs, hval, hw]
  · have hdz : ∀ c ∈ (d :: dtail).map
        (fun c => if c = 'x' ∨ c = 'X' ∨ c = 'z' ∨ c = 'Z' then '0' else c), c = '0' := by
      intro c hc
      rcases List.mem_map.mp hc with ⟨e, he, heq⟩
      rcases hds e he with h | h | h | h <;> subst h <;> simpa using heq.symm
    have hval := pyInt_zeros _ hbpos _ (by simp) hdz
    simp only [List.map_cons] at hval
    rcases sg with _ | _ <;>
    · simp only [Bool.false_eq_true, if_false, if_true, List.nil_append,
        List.cons_append] at hsplit
      match size, hs with
      | s0 :: stail, _ =>
        simp [resolve_number, hsplit, hbs, hval, hw]

/-- Claim C5 part for unsized plain decimals: width 32, unsigned. -/
theorem resolve_number_unsized (cs : List Char) (hne : cs ≠ [])
    (h : ∀ c ∈ cs, 48 ≤ c.toNat ∧ c.toNat ≤ 57) :
    ∃ v, resolve_number cs = some (v, 32, false) := by
  obtain ⟨v, hv⟩ := pyInt_ten cs hne h
  have hu : stripUnderscores cs = cs :=
    stripUnderscores_id cs (fun c hc => (digit_ne c (h c hc)).1)
  have hq : splitQuote cs = none :=
    splitQuote_none cs (fun c hc => (digit_ne c (h c hc)).2)
  exact ⟨v, by simp [resolve_number, hu, hq, hv]⟩

/-- Claim C5: `resolve_number` returns (value, width, signed); an unsized
plain decimal gets width 32 and signed false; a sized literal with empty
digits after the base character resolves to 0 at the declared width;
x/X/z/Z digits are treated as 0 with the signedness flag preserved;
underscores are ignored (they are stripped before any other processing);
and the five concrete inputs of the claim resolve to the claimed triples. -/
theorem resolve_number_c5 :
    (∀ cs : List Char, cs ≠ [] → (∀ c ∈ cs, 48 ≤ c.toNat ∧ c.toNat ≤ 57) →
      ∃ v, resolve_number cs = some (v, 32, false)) ∧
    (∀ (raw size : List Char) (bc : Char),
      splitQuote (stripUnderscores raw) = some (size, [bc]) → size ≠ [] →
      (∀ c ∈ size, 48 ≤ c.toNat ∧ c.toNat ≤ 57) →
      (bc.toLower = 'b' ∨ bc.toLower = 'o' ∨ bc.toLower = 'd' ∨ bc.toLower = 'h') →
      ∃ w, pyInt 10 size = some w ∧ resolve_number raw = some (0, w, false)) ∧
    (∀ (raw size ds : List Char) (bc : Char) (sg : Bool),
      splitQuote (stripUnderscores raw)
        = some (size, (if sg then ['s'] else []) ++ bc :: ds) → size ≠ [] →
      (∀ c ∈ size, 48 ≤ c.toNat ∧ c.toNat ≤ 57) →
      (bc.toLower = 'b' ∨ bc.toLower = 'o' ∨ bc.toLower = 'd' ∨ bc.toLower = 'h') →
      (∀ c ∈ ds, c = 'x' ∨ c = 'X' ∨ c = 'z' ∨ c = 'Z') →
      ∃ w, pyInt 10 size = some w ∧ resolve_number raw = some (0, w, sg)) ∧
    (∀ raw : List Char, resolve_number raw = resolve_number (stripUnderscores raw)) ∧
    (resolve_number ['4', '2'] = some (42, 32, false) ∧
     resolve_number ['8', quoteChar, 'h', 'F', 'F'] = some (255, 8, false) ∧
     resolve_number ['4', quoteChar, 'b', '1', '0', '1', '0'] = some (10, 4, false) ∧
     resolve_number ['3', quoteChar, 'd', '7'] = some (7, 3, false) ∧
     resolve_number ['8', quoteChar, 's', 'h', '8', '0'] = some (128, 8, true)) := by
  refine ⟨resolve_number_unsized, ?_, ?_, ?_, ?_⟩
  · intro raw size bc hsplit hs hsd hbc
    exact resolve_number_sized_zero raw size [] bc false (by simpa using hsplit) hs hsd hbc
      (by simp)
  · intro raw size ds bc sg hsplit hs hsd hbc hds
    exact resolve_number_sized_zero raw size ds bc sg hsplit hs hsd hbc hds
  · intro raw
    have : stripUnderscores (stripUnderscores raw) = stripUnderscores raw := by
      induction raw with
      | nil => rfl
      | cons c rest ih =>
          by_cases hc : c = '_' <;> simp [stripUnderscores, hc, ih]
    simp [resolve_number, this]
  · refine ⟨by decide, by decide, by decide, by decide, by decide⟩

/-- Witness for claim C5: instantiates each hypothesis-bearing part of
`resolve_number_c5` at a concrete input. -/
theorem resolve_number_c5_witness :
    (∃ v, resolve_number ['7'] = some (v, 32, false)) ∧
    (∃ w, pyInt 10 ['8'] = some w ∧
      resolve_number ['8', quoteChar, 'h'] = some (0, w, false)) ∧
    (∃ w, pyInt 10 ['8'] = some w ∧
      resolve_number ['8', quoteChar, 's', 'h', 'x'] = some (0, w, true)) := by
  refine ⟨?_, ?_, ?_⟩
  · exact resolve_number_c5.1 ['7'] (by decide) (by decide)
  · exact resolve_number_c5.2.1 ['8', quoteChar, 'h'] ['8'] 'h' (by decide) (by decide)
      (by decide) (by decide)
  · exact resolve_number_c5.2.2.1 ['8', quoteChar, 's', 'h', 'x'] ['8'] ['x'] 'h' true
      (by decide) (by decide) (by decide) (by decide) (by decide)

/-! ## Claim C4: clock and reset identification in sequential always blocks

Embeds the clock/reset search of `Elaborator._elaborate_sequential_always`
(src/hdl_parser/elaborator.py lines 201-222): one pass over the sensitivity
list, tracking `clk_signal`, `rst_signal` and `rst_polarity`. -/

/-- One entry of an always block's sensitivity list. -/
structure SensItem where
  edge : String
  signal : String
deriving DecidableEq

/-- Does `needle` occur at the start of `hay` (list-of-characters view)? -/
def startsWithL : List Char → List Char → Bool
  | [], _ => true
  | _ :: _, [] => false
  | a :: as, b :: bs => a = b && startsWithL as bs

/-- Models the Python substring test `needle in hay`. -/
def containsSub (needle hay : List Char) : Bool :=
  match hay with
  | [] => needle.isEmpty
  | _ :: rest => startsWithL needle hay || containsSub needle rest

/-- Models the test `'clk' in sens.signal.name.lower()`. -/
def hasClkName (signal : String) : Bool :=
  containsSub ['c', 'l', 'k'] (signal.toList.map Char.toLower)

/-- The loop body of `_elaborate_sequential_always` over the sensitivity
list, threading `(clk_signal, rst_signal, rst_polarity)`. -/
def findClockResetAux : List SensItem → Option String × Option String × Option String →
    Option String × Option String × Option String
  | [], st => st
  | s :: rest, (clk, rst, pol) =>
      if s.edge = "posedge" then
        if hasClkName s.signal then
          findClockResetAux rest (some s.signal, rst, pol)
        else if clk = none then
          findClockResetAux rest (some s.signal, rst, pol)
        else
          findClockResetAux rest (clk, rst, pol)
      else if s.edge = "negedge" then
        findClockResetAux rest (clk, some s.signal, some "negedge")
      else
        findClockResetAux rest (clk, rst, pol)

/-- The `(clk_signal, rst_signal, rst_polarity)` triple computed by
`_elaborate_sequential_always` from a sensitivity list. -/
def findClockReset (sens : List SensItem) :
    Option String × Option String × Option String :=
  findClockResetAux sens (none, none, none)

/-- Models the guard `if not clk_signal: raise ElaborationError(...)`:
true when the block raises (no clock found, or an empty clock name). -/
def seqClockError (sens : List SensItem) : Bool :=
  match (findClockReset sens).1 with
  | none => true
  | some s => s.isEmpty

/-- Signal of the last list entry satisfying a predicate. -/
def lastP (p : SensItem → Bool) : List SensItem → Option String
  | [] => none
  | s :: rest =>
      match lastP p rest with
      | some r => some r
      | none => if p s then some s.signal else none

/-- Signal of the first list entry satisfying a predicate. -/
def firstP (p : SensItem → Bool) : List SensItem → Option String
  | [] => none
  | s :: rest => if p s then some s.signal else firstP p rest

/-- Entry is edge-qualified with posedge. -/
def isPosedge (s : SensItem) : Bool := s.edge = "posedge"

/-- Entry is a posedge whose lowercased signal name contains clk. -/
def isNamedClk (s : SensItem) : Bool := isPosedge s && hasClkName s.signal

/-- Entry is edge-qualified with negedge. -/
def isNegedge (s : SensItem) : Bool := s.edge = "negedge"

theorem findClockResetAux_spec (sens : List SensItem)
    (clk rst pol : Option String) :
    findClockResetAux sens (clk, rst, pol) =
      ( match lastP isNamedClk sens with
        | some c => some c
        | none => match clk with
          | some c => some c
          | none => firstP isPosedge sens,
        match lastP isNegedge sens with
        | some r => some r
        | none => rst,
        match lastP isNegedge sens with
        | some _ => some "negedge"
        | none => pol ) := by
  induction sens generalizing clk rst pol with
  | nil => rcases clk with _ | c <;> simp [findClockResetAux, lastP, firstP]
  | cons s rest ih =>
      by_cases hp : s.edge = "posedge"
      · have hg : ¬ s.edge = "negedge" := by rw [hp]; decide
        by_cases hn : hasClkName s.signal <;> rcases clk with _ | c0 <;>
        rcases hmc : lastP isNamedClk rest with _ | c <;>
        rcases hmn : lastP isNegedge rest with _ | r <;>
        simp [findClockResetAux, ih, lastP, firstP, isNamedClk, isNegedge, isPosedge,
          hp, hg, hn, hmc, hmn]
      · by_cases hg : s.edge = "negedge" <;>
        rcases clk with _ | c0 <;>
        rcases hmc : lastP isNamedClk rest with _ | c <;>
        rcases hmn : lastP isNegedge rest with _ | r <;>
        simp [findClockResetAux, ih, lastP, firstP, isNamedClk, isNegedge, isPosedge,
          hp, hg, hmc, hmn]

theorem lastP_mem (p : SensItem → Bool) (sens : List SensItem) (x : String)
    (h : lastP p sens = some x) : ∃ s ∈ sens, p s ∧ s.signal = x := by
  induction sens with
  | nil => simp [lastP] at h
  | cons s rest ih =>
      simp only [lastP] at h
      rcases hr : lastP p rest with _ | r
      · rw [hr] at h
        by_cases hp : p s
        · simp [hp] at h
          exact ⟨s, List.mem_cons_self _ _, hp, h⟩
        · simp [hp] at h
      · rw [hr] at h
        obtain ⟨t, ht, hpt, hsig⟩ := ih (hr.trans (by rw [← h]))
        exact ⟨t, List.mem_cons_of_mem _ ht, hpt, hsig⟩

theorem firstP_mem (p : SensItem → Bool) (sens : List SensItem) (x : String)
    (h : firstP p sens = some x) : ∃ s ∈ sens, p s ∧ s.signal = x := by
  induction sens with
  | nil => simp [firstP] at h
  | cons s rest ih =>
      simp only [firstP] at h
      by_cases hp : p s
      · simp [hp] at h
        exact ⟨s, List.mem_cons_self _ _, hp, h⟩
      · simp [hp] at h
        obtain ⟨t, ht, hpt, hsig⟩ := ih h
        exact ⟨t, List.mem_cons_of_mem _ ht, hpt, hsig⟩

theorem firstP_none (p : SensItem → Bool) (sens : List SensItem) :
    firstP p sens = none ↔ ∀ s ∈ sens, ¬ p s := by
  induction sens with
  | nil => simp [firstP]
  | cons s rest ih =>
      by_cases hp : p s <;> simp [firstP, hp, ih]

/-- Counterexample to claim C4 as stated.  The claim says the FIRST posedge
signal in the sensitivity list is the clock, and that a second posedge on a
non-clock signal is the reset.  The code instead prefers any posedge signal
whose name contains clk (later entries overwriting earlier ones), and never
records a posedge signal as reset.  With sensitivity
`@(posedge rst, posedge clk)` the first posedge signal is rst, yet the
code identifies clk as the clock; with `@(posedge clk, posedge rst)` the
claim makes rst the reset, yet the code records no reset at all. -/
theorem findClockReset_c4_counterexample :
    (findClockReset [⟨"posedge", "rst"⟩, ⟨"posedge", "clk"⟩]).1 = some "clk" ∧
    ¬ (findClockReset [⟨"posedge", "rst"⟩, ⟨"posedge", "clk"⟩]).1 = some "rst" ∧
    (findClockReset [⟨"posedge", "clk"⟩, ⟨"posedge", "rst"⟩]).2.1 = none ∧
    ¬ (findClockReset [⟨"posedge", "clk"⟩, ⟨"posedge", "rst"⟩]).2.1 = some "rst" := by
  refine ⟨by decide, by decide, by decide, by decide⟩

/-- Claim C4, amended to what the code does: the clock is the LAST posedge
entry whose lowercased name contains clk, and otherwise the first posedge
entry; the reset is the last negedge entry (posedge entries are never taken
as reset) with polarity negedge; and for sensitivity lists whose signal
names are non-empty, ElaborationError is raised exactly when the list has
no posedge entry. -/
theorem findClockReset_c4_amended :
    (∀ sens : List SensItem,
      findClockReset sens =
        ( match lastP isNamedClk sens with
          | some c => some c
          | none => firstP isPosedge sens,
          lastP isNegedge sens,
          match lastP isNegedge sens with
          | some _ => some "negedge"
          | none => none )) ∧
    (∀ sens : List SensItem, (∀ s ∈ sens, s.signal ≠ "") →
      (seqClockError sens = true ↔ ∀ s ∈ sens, s.edge ≠ "posedge")) := by
  have hchar : ∀ sens : List SensItem,
      findClockReset sens =
        ( match lastP isNamedClk sens with
          | some c => some c
          | none => firstP isPosedge sens,
          lastP isNegedge sens,
          match lastP isNegedge sens with
          | some _ => some "negedge"
          | none => none ) := by
    intro sens
    have h := findClockResetAux_spec sens none none none
    rcases hmn : lastP isNegedge sens with _ | r <;> simpa [findClockReset, hmn] using h
  refine ⟨hchar, ?_⟩
  intro sens hne
  rw [show seqClockError sens =
      (match (findClockReset sens).1 with
       | none => true
       | some s => s.isEmpty) from rfl]
  rw [hchar sens]
  constructor
  · intro h s hs hp
    rcases hc : lastP isNamedClk sens with _ | c
    · rcases hf : firstP isPosedge sens with _ | f
      · rw [firstP_none] at hf
        exact hf s hs (by simp [isPosedge, hp])
      · simp only [hc, hf] at h
        obtain ⟨t, ht, _, hsig⟩ := firstP_mem _ _ _ hf
        have : f ≠ "" := hsig ▸ hne t ht
        simp [String.isEmpty_iff] at h
        exact this h
    · simp only [hc] at h
      obtain ⟨t, ht, _, hsig⟩ := lastP_mem _ _ _ hc
      have : c ≠ "" := hsig ▸ hne t ht
      simp [String.isEmpty_iff] at h
      exact this h
  · intro h
    have hc : lastP isNamedClk sens = none := by
      rcases hcc : lastP isNamedClk sens with _ | c
      · rfl
      · obtain ⟨t, ht, hpt, _⟩ := lastP_mem _ _ _ hcc
        have h2 : isPosedge t = true := by
          unfold isNamedClk at hpt
          exact ((Bool.and_eq_true _ _).mp hpt).1
        have h3 : t.edge = "posedge" := by simpa [isPosedge] using h2
        exact absurd h3 (h t ht)
    have hf : firstP isPosedge sens = none := by
      rw [firstP_none]
      intro s hs
      have := h s hs
      simp [isPosedge]
      intro hh
      exact this hh
    simp [hc, hf]

/-- Witness for the amended claim C4: a single posedge clk entry gives a
non-raising elaboration with clock clk and no reset. -/
theorem findClockReset_c4_witness :
    (findClockReset [⟨"posedge", "clk"⟩] = (some "clk", none, none)) ∧
    ((∀ s ∈ [(⟨"posedge", "clk"⟩ : SensItem)], s.signal ≠ "") ∧
      (seqClockError [⟨"posedge", "clk"⟩] = true ↔
        ∀ s ∈ [(⟨"posedge", "clk"⟩ : SensItem)], s.edge ≠ "posedge")) := by
  refine ⟨?_, ?_, ?_⟩
  · have h := findClockReset_c4_amended.1 [⟨"posedge", "clk"⟩]
    rw [h]
    decide
  · decide
  · exact findClockReset_c4_amended.2 [⟨"posedge", "clk"⟩] (by decide)

/-! ## The netlist graph model (src/ir/netlist.py and src/ir/types.py)

Pins, nets and cells are Python objects with identity; they are modelled by
records stored in heaps (`pinH`, `netH`, `cellH`) indexed by the id that
`_new_id()` hands out.  The containing `Netlist` keeps insertion-ordered
dicts of cell ids and net ids (`nlCells`, `nlNets`) plus the module I/O
name maps.  Objects stay in the heap after removal from the netlist, since
pins can still reference a removed net and nets a removed cell's pin. -/

/-- Port direction (src/ir/types.py PortDir). -/
inductive PortDir
  | INPUT
  | OUTPUT
  | INOUT
deriving DecidableEq

/-- Primitive cell operations (src/ir/types.py CellOp). -/
inductive CellOp
  | CONST
  | BUF
  | NOT
  | AND
  | OR
  | XOR
  | NAND
  | NOR
  | XNOR
  | REDUCE_AND
  | REDUCE_OR
  | REDUCE_XOR
  | ADD
  | SUB
  | MUL
  | NEG
  | EQ
  | NEQ
  | LT
  | LE
  | GT
  | GE
  | SHL
  | SHR
  | SSHR
  | MUX
  | PMUX
  | CONCAT
  | SLICE
  | REPEAT
  | DFF
  | DFFR
  | DFFRE
  | DFFS
  | MEMRD
  | MEMWR
  | MODULE_INPUT
  | MODULE_OUTPUT
deriving DecidableEq

/-- Signal width [msb:lsb] (src/ir/types.py BitWidth). -/
structure BitWidth where
  msb : Int
  lsb : Int
deriving DecidableEq

/-- BitWidth.width property: msb - lsb + 1. -/
def BitWidth.width (w : BitWidth) : Int := w.msb - w.lsb + 1

/-- BitWidth.from_width: an N-bit signal is [N-1:0]. -/
def BitWidth.from_width (w : Int) : BitWidth := ⟨w - 1, 0⟩

/-- A Pin object (netlist.py Pin): name, direction, width, owning cell and
connected net, the latter two by id. -/
structure PinObj where
  name : String
  dir : PortDir
  width : BitWidth
  cellId : Option Nat
  netId : Option Nat
deriving DecidableEq

/-- A Net object (netlist.py Net): one driver pin, ordered sink pins. -/
structure NetObj where
  name : String
  width : BitWidth
  driver : Option Nat
  sinks : List Nat
deriving DecidableEq

/-- A Cell object (netlist.py Cell).  `inputs`/`outputs` are the
insertion-ordered name-to-pin dicts; of the attribute dict the model keeps
the `value` and `width` entries, the only ones the modelled passes read. -/
structure CellObj where
  name : String
  op : CellOp
  inputs : List (String × Nat)
  outputs : List (String × Nat)
  valueAttr : Option Int
  widthAttr : Option Int
deriving DecidableEq

/-- Heap plus netlist state: the object heaps, the `Netlist` dict contents
and the id counter. -/
structure NLState where
  pinH : List (Nat × PinObj)
  netH : List (Nat × NetObj)
  cellH : List (Nat × CellObj)
  nlName : String
  nlCells : List Nat
  nlNets : List Nat
  nlInputs : List (String × Nat)
  nlOutputs : List (String × Nat)
  nextId : Nat
deriving DecidableEq

/-- A fresh `Netlist(name)` with the id counter reset to 1. -/
def emptyNL (name : String) : NLState := ⟨[], [], [], name, [], [], [], [], 1⟩

/-- Models `_new_id()`. -/
def freshId (s : NLState) : Nat × NLState := (s.nextId, { s with nextId := s.nextId + 1 })

/-- Cell.add_input: create an input pin owned by the cell and register it
under its name. -/
def add_input (s : NLState) (cid : Nat) (name : String) (w : BitWidth) :
    Option (Nat × NLState) := do
  let (pid, s) := freshId s
  let cell ← lookupA s.cellH cid
  let pin : PinObj := ⟨name, PortDir.INPUT, w, some cid, none⟩
  some (pid, { s with pinH := setA s.pinH pid pin,
                      cellH := setA s.cellH cid
                        { cell with inputs := setA cell.inputs name pid } })

/-- Cell.add_output: create an output pin owned by the cell and register it
under its name. -/
def add_output (s : NLState) (cid : Nat) (name : String) (w : BitWidth) :
    Option (Nat × NLState) := do
  let (pid, s) := freshId s
  let cell ← lookupA s.cellH cid
  let pin : PinObj := ⟨name, PortDir.OUTPUT, w, some cid, none⟩
  some (pid, { s with pinH := setA s.pinH pid pin,
                      cellH := setA s.cellH cid
                        { cell with outputs := setA cell.outputs name pid } })

/-- Cell.output property: the single output pin; `none` models the
AssertionError for cells without exactly one output. -/
def cellOutput (cell : CellObj) : Option Nat :=
  match cell.outputs with
  | [(_, pid)] => some pid
  | _ => none

/-- Net.add_sink: append the pin to the sinks and point the pin at the net. -/
def add_sink (s : NLState) (nid pid : Nat) : Option NLState := do
  let net ← lookupA s.netH nid
  let pin ← lookupA s.pinH pid
  some { s with netH := setA s.netH nid { net with sinks := net.sinks ++ [pid] },
                pinH := setA s.pinH pid { pin with netId := some nid } }

/-- Net.remove_sink: `self.sinks.remove(pin)` (ValueError, hence `none`,
when the pin is not a sink), then clear `pin.net` if it pointed here. -/
def remove_sink (s : NLState) (nid pid : Nat) : Option NLState := do
  let net ← lookupA s.netH nid
  if pid ∈ net.sinks then
    let s2 := { s with netH := setA s.netH nid { net with sinks := net.sinks.erase pid } }
    let pin ← lookupA s2.pinH pid
    if pin.netId = some nid then
      some { s2 with pinH := setA s2.pinH pid { pin with netId := none } }
    else
      some s2
  else
    none

/-- Net.set_driver: set the driver and point the pin at the net. -/
def set_driver (s : NLState) (nid pid : Nat) : Option NLState := do
  let net ← lookupA s.netH nid
  let pin ← lookupA s.pinH pid
  some { s with netH := setA s.netH nid { net with driver := some pid },
                pinH := setA s.pinH pid { pin with netId := some nid } }

/-- Netlist.add_cell: `self.cells[cell.id] = cell`. -/
def add_cell_nl (s : NLState) (cid : Nat) : NLState :=
  { s with nlCells := if cid ∈ s.nlCells then s.nlCells else s.nlCells ++ [cid] }

/-- Netlist.add_net: `self.nets[net.id] = net`. -/
def add_net_nl (s : NLState) (nid : Nat) : NLState :=
  { s with nlNets := if nid ∈ s.nlNets then s.nlNets else s.nlNets ++ [nid] }

/-- Netlist.create_net: create a Net object and add it. -/
def create_net (s : NLState) (name : String) (w : Option BitWidth) : Nat × NLState :=
  let (nid, s) := freshId s
  let wd := match w with | some w => w | none => (⟨0, 0⟩ : BitWidth)
  let s := { s with netH := setA s.netH nid ⟨name, wd, none, []⟩ }
  (nid, add_net_nl s nid)

/-- Netlist.create_cell: create a cell with the given port names (an output
`Y` is added when no output names are given) and add it to the netlist. -/
def create_cell (s : NLState) (op : CellOp) (name : String)
    (inputNames : List String) (outputNames : List String) (w : Option BitWidth) :
    Option (Nat × NLState) := do
  let (cid, s) := freshId s
  let s := { s with cellH := setA s.cellH cid ⟨name, op, [], [], none, none⟩ }
  let wd := match w with | some w => w | none => (⟨0, 0⟩ : BitWidth)
  let s ← inputNames.foldlM (fun st nm => do
      let (_, st2) ← add_input st cid nm wd
      some st2) s
  let s ← match outputNames with
    | [] => do
        let (_, st2) ← add_output s cid "Y" wd
        some st2
    | _ => outputNames.foldlM (fun st nm => do
        let (_, st2) ← add_output st cid nm wd
        some st2) s
  some (cid, add_cell_nl s cid)

/-- Netlist.connect (netlist.py lines 236-260): choose the net (the given
one, else the driver's, else a fresh one), give it a driver if it has none,
append the sink, and register the net with the netlist if absent. -/
def connect (s : NLState) (driverPid sinkPid : Nat) (netArg : Option Nat) :
    Option (Nat × NLState) := do
  let dpin ← lookupA s.pinH driverPid
  let (nid, s) ←
    match netArg with
    | some n => some ((n, s) : Nat × NLState)
    | none =>
        match dpin.netId with
        | some n => some ((n, s) : Nat × NLState)
        | none =>
            some (create_net s
              ("n" ++ toString driverPid ++ "_" ++ toString sinkPid) (some dpin.width))
  let net ← lookupA s.netH nid
  let s ← if net.driver = none then set_driver s nid driverPid else some s
  let s ← add_sink s nid sinkPid
  let s := add_net_nl s nid
  some (nid, s)

/-- Netlist.add_module_input. -/
def add_module_input (s : NLState) (name : String) (w : BitWidth) :
    Option (Nat × NLState) := do
  let (cid, s) ← create_cell s CellOp.MODULE_INPUT name [] ["Y"] (some w)
  some (cid, { s with nlInputs := setA s.nlInputs name cid })

/-- Netlist.add_module_output (note: create_cell still adds the default
output Y besides the A input). -/
def add_module_output (s : NLState) (name : String) (w : BitWidth) :
    Option (Nat × NLState) := do
  let (cid, s) ← create_cell s CellOp.MODULE_OUTPUT name ["A"] [] (some w)
  some (cid, { s with nlOutputs := setA s.nlOutputs name cid })

/-- The input-pin half of Netlist.remove_cell: `if pin.net:
pin.net.remove_sink(pin)`. -/
def detachInputPin (s : NLState) (pid : Nat) : Option NLState := do
  let pin ← lookupA s.pinH pid
  match pin.netId with
  | some nid => remove_sink s nid pid
  | none => some s

/-- The output-pin half of Netlist.remove_cell: disconnect every sink of
the pin's net (snapshot of the sink list), null the driver, and delete the
net from the netlist dict when present. -/
def detachOutputPin (s : NLState) (pid : Nat) : Option NLState := do
  let pin ← lookupA s.pinH pid
  match pin.netId with
  | none => some s
  | some nid => do
      let net ← lookupA s.netH nid
      let s ← net.sinks.foldlM (fun st q => remove_sink st nid q) s
      let net2 ← lookupA s.netH nid
      let s := { s with netH := setA s.netH nid { net2 with driver := none } }
      some (if nid ∈ s.nlNets then { s with nlNets := s.nlNets.erase nid } else s)

/-- Netlist.remove_cell (netlist.py lines 282-304). -/
def remove_cell (s : NLState) (cid : Nat) : Option NLState := do
  let cell ← lookupA s.cellH cid
  let s ← (cell.inputs.map Prod.snd).foldlM (fun st pid => detachInputPin st pid) s
  let s ← (cell.outputs.map Prod.snd).foldlM (fun st pid => detachOutputPin st pid) s
  let s := if cid ∈ s.nlCells then { s with nlCells := s.nlCells.erase cid } else s
  some { s with nlInputs := s.nlInputs.filter (fun kv => decide (kv.2 ≠ cid)),
                nlOutputs := s.nlOutputs.filter (fun kv => decide (kv.2 ≠ cid)) }

/-! ## Claim C7: Netlist.connect -/

/-- A small state for the C7 counterexample: pin 1 (an output pin) already
connected to net 10, pin 2 unconnected, and a second net 20 with no
driver.  All ids below the counter; both nets registered. -/
def c7state : NLState :=
  { pinH := [(1, ⟨"Y", PortDir.OUTPUT, ⟨0, 0⟩, none, some 10⟩),
             (2, ⟨"A", PortDir.INPUT, ⟨0, 0⟩, none, none⟩)],
    netH := [(10, ⟨"n10", ⟨0, 0⟩, some 1, []⟩), (20, ⟨"n20", ⟨0, 0⟩, none, []⟩)],
    cellH := [], nlName := "top", nlCells := [], nlNets := [10, 20],
    nlInputs := [], nlOutputs := [], nextId := 100 }

/-- Counterexample to claim C7 as stated.  The claim says connect fails
(reports an error) whenever the driver pin already has a net distinct from
a caller-supplied net argument.  The code has no such check: with pin 1
already on net 10 and net 20 supplied, connect completes normally, makes
pin 1 the driver of net 20 (re-pointing pin 1 away from net 10) and appends
the sink. -/
theorem connect_c7_counterexample :
    (lookupA c7state.pinH 1).map PinObj.netId = some (some 10) ∧
    (10 : Nat) ≠ 20 ∧
    ((connect c7state 1 2 (some 20)).map (fun r =>
        (r.1,
         (lookupA r.2.netH 20).map NetObj.sinks,
         (lookupA r.2.netH 20).map NetObj.driver,
         (lookupA r.2.pinH 1).map PinObj.netId)))
      = some (20, some [2], some (some 1), some (some 20)) := by
  refine ⟨by decide, by decide, by decide⟩

theorem mem_ite_append_self (n : Nat) (l : List Nat) :
    n ∈ (if n ∈ l then l else l ++ [n]) := by
  by_cases h : n ∈ l <;> simp [h]

/-- Claim C7 amended to what the code does: connect never fails.  With a
caller-supplied net (even one distinct from the driver's current net) it
uses that net; with none it reuses the driver's net; with neither it
creates a fresh net named after the two pin ids.  In every case the net
gets the driver pin as driver exactly when it had none, the sink pin is
appended to its sinks (and re-pointed at the net), and the net ends up
registered in the netlist. -/
theorem connect_c7_amended :
    (∀ (s : NLState) (d k n : Nat) (dpin : PinObj) (net : NetObj) (kpin : PinObj),
      lookupA s.pinH d = some dpin → lookupA s.netH n = some net →
      lookupA s.pinH k = some kpin →
      ((connect s d k (some n)).map Prod.fst = some n ∧
       ((connect s d k (some n)).bind fun r => lookupA r.2.netH n).map NetObj.driver
         = some (if net.driver = none then some d else net.driver) ∧
       ((connect s d k (some n)).bind fun r => lookupA r.2.netH n).map NetObj.sinks
         = some (net.sinks ++ [k]) ∧
       ((connect s d k (some n)).bind fun r => lookupA r.2.pinH k).map PinObj.netId
         = some (some n) ∧
       (connect s d k (some n)).map (fun r => decide (n ∈ r.2.nlNets)) = some true)) ∧
    (∀ (s : NLState) (d k n : Nat) (dpin : PinObj) (net : NetObj) (kpin : PinObj),
      lookupA s.pinH d = some dpin → dpin.netId = some n →
      lookupA s.netH n = some net → lookupA s.pinH k = some kpin →
      ((connect s d k none).map Prod.fst = some n ∧
       ((connect s d k none).bind fun r => lookupA r.2.netH n).map NetObj.driver
         = some (if net.driver = none then some d else net.driver) ∧
       ((connect s d k none).bind fun r => lookupA r.2.netH n).map NetObj.sinks
         = some (net.sinks ++ [k]) ∧
       ((connect s d k none).bind fun r => lookupA r.2.pinH k).map PinObj.netId
         = some (some n) ∧
       (connect s d k none).map (fun r => decide (n ∈ r.2.nlNets)) = some true)) ∧
    (∀ (s : NLState) (d k : Nat) (dpin : PinObj) (kpin : PinObj),
      lookupA s.pinH d = some dpin → dpin.netId = none →
      lookupA s.pinH k = some kpin → lookupA s.netH s.nextId = none →
      s.nextId ∉ s.nlNets →
      ((connect s d k none).map Prod.fst = some s.nextId ∧
       ((connect s d k none).bind fun r => lookupA r.2.netH s.nextId).map NetObj.driver
         = some (some d) ∧
       ((connect s d k none).bind fun r => lookupA r.2.netH s.nextId).map NetObj.sinks
         = some [k] ∧
       ((connect s d k none).bind fun r => lookupA r.2.netH s.nextId).map NetObj.name
         = some ("n" ++ toString d ++ "_" ++ toString k) ∧
       ((connect s d k none).bind fun r => lookupA r.2.pinH k).map PinObj.netId
         = some (some s.nextId) ∧
       ((connect s d k none).bind fun r => lookupA r.2.pinH d).map PinObj.netId
         = some (some s.nextId) ∧
       (connect s d k none).map (fun r => decide (s.nextId ∈ r.2.nlNets)) = some true)) := by
  refine ⟨?_, ?_, ?_⟩
  · intro s d k n dpin net kpin hd hn hk
    by_cases hdr : net.driver = none
    · by_cases hkd : d = k <;>
        simp [connect, hd, hn, hk, hdr, hkd, set_driver, add_sink, add_net_nl,
          lookupA_setA, List.mem_append, mem_ite_append_self]
    · simp [connect, hd, hn, hk, hdr, add_sink, add_net_nl,
        lookupA_setA, List.mem_append, mem_ite_append_self]
  · intro s d k n dpin net kpin hd hdn hn hk
    by_cases hkd : d = k
    · subst hkd
      have hke : dpin = kpin := by rw [hd] at hk; exact Option.some.inj hk
      subst hke
      by_cases hdr : net.driver = none <;>
        simp [connect, hd, hdn, hn, hdr, set_driver, add_sink, add_net_nl,
          lookupA_setA, List.mem_append, mem_ite_append_self]
    · by_cases hdr : net.driver = none <;>
        simp [connect, hd, hdn, hn, hk, hdr, hkd, set_driver, add_sink, add_net_nl,
          lookupA_setA, List.mem_append, mem_ite_append_self]
  · intro s d k dpin kpin hd hdn hk hfresh hmem
    by_cases hkd : d = k
    · subst hkd
      have hke : dpin = kpin := by rw [hd] at hk; exact Option.some.inj hk
      subst hke
      simp [connect, hd, hdn, create_net, freshId, set_driver, add_sink,
        add_net_nl, lookupA_setA, hfresh, hmem, List.mem_append, mem_ite_append_self]
    · have hkd2 : ¬ k = d := fun h => hkd h.symm
      simp [connect, hd, hdn, hk, hkd, hkd2, create_net, freshId, set_driver, add_sink,
        add_net_nl, lookupA_setA, hfresh, hmem, List.mem_append, mem_ite_append_self]

/-- Witness for the amended claim C7, applying all three cases of
`connect_c7_amended` on the concrete counterexample state. -/
theorem connect_c7_witness :
    ((connect c7state 1 2 (some 20)).map Prod.fst = some 20 ∧
     ((connect c7state 1 2 (some 20)).bind fun r => lookupA r.2.netH 20).map NetObj.driver
       = some (if (none : Option Nat) = none then some 1 else none) ∧
     ((connect c7state 1 2 (some 20)).bind fun r => lookupA r.2.netH 20).map NetObj.sinks
       = some ([] ++ [2]) ∧
     ((connect c7state 1 2 (some 20)).bind fun r => lookupA r.2.pinH 2).map PinObj.netId
       = some (some 20) ∧
     (connect c7state 1 2 (some 20)).map (fun r => decide ((20 : Nat) ∈ r.2.nlNets))
       = some true) ∧
    ((connect c7state 1 2 none).map Prod.fst = some 10) ∧
    ((connect c7state 2 1 none).map Prod.fst = some c7state.nextId) := by
  refine ⟨?_, ?_, ?_⟩
  · exact connect_c7_amended.1 c7state 1 2 20 ⟨"Y", PortDir.OUTPUT, ⟨0, 0⟩, none, some 10⟩
      ⟨"n20", ⟨0, 0⟩, none, []⟩ ⟨"A", PortDir.INPUT, ⟨0, 0⟩, none, none⟩
      (by decide) (by decide) (by decide)
  · exact (connect_c7_amended.2.1 c7state 1 2 10 ⟨"Y", PortDir.OUTPUT, ⟨0, 0⟩, none, some 10⟩
      ⟨"n10", ⟨0, 0⟩, some 1, []⟩ ⟨"A", PortDir.INPUT, ⟨0, 0⟩, none, none⟩
      (by decide) (by decide) (by decide) (by decide)).1
  · exact (connect_c7_amended.2.2 c7state 2 1 ⟨"A", PortDir.INPUT, ⟨0, 0⟩, none, none⟩
      ⟨"Y", PortDir.OUTPUT, ⟨0, 0⟩, none, some 10⟩
      (by decide) (by decide) (by decide) (by decide) (by decide)).1

/-! ## Claim C10: the effect of Netlist.remove_cell -/

theorem setA_setA {κ α : Type} [DecidableEq κ] (l : List (κ × α)) (k : κ) (v w : α) :
    setA (setA l k v) k w = setA l k w := by
  induction l with
  | nil => simp [setA]
  | cons hd tl ih =>
      obtain ⟨k2, u⟩ := hd
      by_cases h : k2 = k <;> simp [setA, h, ih]

theorem setA_lookup_self {κ α : Type} [DecidableEq κ] (l : List (κ × α)) (k : κ) (v : α)
    (h : lookupA l k = some v) : setA l k v = l := by
  induction l with
  | nil => simp [lookupA] at h
  | cons hd tl ih =>
      obtain ⟨k2, u⟩ := hd
      by_cases hk : k2 = k
      · subst hk
        simp [lookupA] at h
        simp [setA, h]
      · simp [lookupA, hk] at h
        simp [setA, hk, ih h]

/-- Explicit result of a successful Net.remove_sink. -/
theorem remove_sink_eq (s : NLState) (nid pid : Nat) (net : NetObj) (pin : PinObj)
    (hn : lookupA s.netH nid = some net) (hin : pid ∈ net.sinks)
    (hp : lookupA s.pinH pid = some pin) :
    remove_sink s nid pid = some { s with
      netH := setA s.netH nid { net with sinks := net.sinks.erase pid },
      pinH := if pin.netId = some nid
        then setA s.pinH pid { pin with netId := none } else s.pinH } := by
  by_cases hpn : pin.netId = some nid <;> simp [remove_sink, hn, hin, hp, hpn]

/-- Draining every sink of a net, as the output-pin loop of remove_cell
does: the net ends with no sinks, every drained pin ends detached, pins
outside the sink list and nets other than this one are untouched. -/
theorem drain_sinks (qs : List Nat) : ∀ (s : NLState) (nid : Nat) (net : NetObj),
    lookupA s.netH nid = some net → net.sinks = qs →
    (∀ q ∈ qs, ∃ p, lookupA s.pinH q = some p ∧
      (p.netId = some nid ∨ p.netId = none)) →
    ∃ s2, qs.foldlM (fun st q => remove_sink st nid q) s = some s2 ∧
      s2.netH = setA s.netH nid { net with sinks := [] } ∧
      (∀ q ∈ qs, ∃ p, lookupA s.pinH q = some p ∧
        lookupA s2.pinH q = some { p with netId := none }) ∧
      (∀ q, q ∉ qs → lookupA s2.pinH q = lookupA s.pinH q) ∧
      s2.cellH = s.cellH ∧ s2.nlNets = s.nlNets ∧ s2.nlCells = s.nlCells ∧
      s2.nlInputs = s.nlInputs ∧ s2.nlOutputs = s.nlOutputs ∧ s2.nextId = s.nextId := by
  induction qs with
  | nil =>
      intro s nid net hn hs hq
      have hnet : ({ net with sinks := [] } : NetObj) = net := by
        cases net
        simp_all
      refine ⟨s, rfl, ?_, by simp, fun q _ => rfl, rfl, rfl, rfl, rfl, rfl, rfl⟩
      rw [hnet]
      exact (setA_lookup_self s.netH nid net hn).symm
  | cons q rest ih =>
      intro s nid net hn hs hq
      obtain ⟨p, hp, hpd⟩ := hq q (List.mem_cons_self _ _)
      have hqin : q ∈ net.sinks := by rw [hs]; exact List.mem_cons_self _ _
      have hstep := remove_sink_eq s nid q net p hn hqin hp
      have herase : net.sinks.erase q = rest := by rw [hs]; exact List.erase_cons_head q rest
      set s1 : NLState := { s with
        netH := setA s.netH nid { net with sinks := net.sinks.erase q },
        pinH := if p.netId = some nid
          then setA s.pinH q { p with netId := none } else s.pinH } with hs1
      have hn1 : lookupA s1.netH nid = some { net with sinks := rest } := by
        rw [hs1]
        simp [lookupA_setA, herase]
      have hq1 : ∀ q2 ∈ rest, ∃ p2, lookupA s1.pinH q2 = some p2 ∧
          (p2.netId = some nid ∨ p2.netId = none) := by
        intro q2 hq2
        obtain ⟨p2, hp2, hpd2⟩ := hq q2 (List.mem_cons_of_mem _ hq2)
        by_cases hqq : q = q2
        · subst hqq
          rcases hpn : p.netId with _ | _
          · exact ⟨p2, by rw [hs1]; simp [hpn, hp2], hpd2⟩
          · by_cases hpnn : p.netId = some nid
            · refine ⟨{ p with netId := none }, ?_, Or.inr rfl⟩
              rw [hs1]
              simp [hpnn, lookupA_setA]
            · exact ⟨p2, by rw [hs1]; simp [hpnn, hp2], hpd2⟩
        · refine ⟨p2, ?_, hpd2⟩
          rw [hs1]
          by_cases hpnn : p.netId = some nid <;> simp [hpnn, lookupA_setA, hqq, hp2]
      obtain ⟨s2, hfold, hnet2, hpins2, hframe2, hc2, hn2, hcl2, hi2, ho2, hx2⟩ :=
        ih s1 nid { net with sinks := rest } hn1 rfl hq1
      refine ⟨s2, ?_, ?_, ?_, ?_, ?_, ?_, ?_, ?_, ?_, ?_⟩
      · simpa [List.foldlM, hstep, ← hs1] using hfold
      · rw [hnet2, hs1]
        simp [setA_setA]
      · intro q2 hq2
        rcases List.mem_cons.mp hq2 with hq2 | hq2
        · subst hq2
          by_cases hqr : q2 ∈ rest
          · obtain ⟨p2, hp2, hp2f⟩ := hpins2 q2 hqr
            refine ⟨p, hp, ?_⟩
            rcases hpd with hpd | hpd
            · rw [hs1] at hp2
              simp [hpd, lookupA_setA] at hp2
              rw [hp2f, ← hp2]
            · rw [hs1] at hp2
              have hpnn : ¬ p.netId = some nid := by simp [hpd]
              simp [hpnn, hp] at hp2
              rw [hp2f, ← hp2, ← hpd]
          · refine ⟨p, hp, ?_⟩
            rw [hframe2 q2 hqr, hs1]
            rcases hpd with hpd | hpd
            · simp [hpd, lookupA_setA]
            · have hpnn : ¬ p.netId = some nid := by simp [hpd]
              simp [hpnn, hp, ← hpd]
        · obtain ⟨p2, hp2, hp2f⟩ := hpins2 q2 hq2
          by_cases hqq : q = q2
          · subst hqq
            refine ⟨p, hp, ?_⟩
            rcases hpd with hpd | hpd
            · rw [hs1] at hp2
              simp [hpd, lookupA_setA] at hp2
              rw [hp2f, ← hp2]
            · rw [hs1] at hp2
              have hpnn : ¬ p.netId = some nid := by simp [hpd]
              simp [hpnn, hp] at hp2
              rw [hp2f, ← hp2, ← hpd]
          · refine ⟨p2, ?_, hp2f⟩
            rw [← hp2, hs1]
            by_cases hpnn : p.netId = some nid <;> simp [hpnn, lookupA_setA, hqq]
      · intro q2 hq2
        have hqr : q2 ∉ rest := fun h => hq2 (List.mem_cons_of_mem _ h)
        have hqq : ¬ q = q2 := fun h => hq2 (h ▸ List.mem_cons_self _ _)
        rw [hframe2 q2 hqr, hs1]
        by_cases hpnn : p.netId = some nid <;> simp [hpnn, lookupA_setA, hqq]
      · rw [hc2, hs1]
      · rw [hn2, hs1]
      · rw [hcl2, hs1]
      · rw [hi2, hs1]
      · rw [ho2, hs1]
      · rw [hx2, hs1]

/-- Effect of the output-pin half of remove_cell on a connected output pin:
the net keeps its record but loses all sinks and its driver, it is deleted
from the netlist dict, every sink pin is detached, and everything else is
untouched. -/
theorem detachOutputPin_spec (s : NLState) (pid nid : Nat) (pin : PinObj) (net : NetObj)
    (hp : lookupA s.pinH pid = some pin) (hpn : pin.netId = some nid)
    (hn : lookupA s.netH nid = some net)
    (hq : ∀ q ∈ net.sinks, ∃ p, lookupA s.pinH q = some p ∧
      (p.netId = some nid ∨ p.netId = none)) :
    ∃ s2, detachOutputPin s pid = some s2 ∧
      lookupA s2.netH nid = some { net with driver := none, sinks := [] } ∧
      (∀ m, ¬ m = nid → lookupA s2.netH m = lookupA s.netH m) ∧
      (∀ q ∈ net.sinks, ∃ p, lookupA s.pinH q = some p ∧
        lookupA s2.pinH q = some { p with netId := none }) ∧
      (∀ q, q ∉ net.sinks → lookupA s2.pinH q = lookupA s.pinH q) ∧
      s2.nlNets = s.nlNets.erase nid ∧
      s2.cellH = s.cellH ∧ s2.nlCells = s.nlCells ∧
      s2.nlInputs = s.nlInputs ∧ s2.nlOutputs = s.nlOutputs ∧ s2.nextId = s.nextId := by
  obtain ⟨s1, hfold, hnet1, hpins1, hframe1, hc1, hn1, hcl1, hi1, ho1, hx1⟩ :=
    drain_sinks net.sinks s nid net hn rfl hq
  have hnid1 : lookupA s1.netH nid = some { net with sinks := [] } := by
    rw [hnet1]; simp [lookupA_setA]
  by_cases hmem : nid ∈ s.nlNets
  · refine ⟨{ s1 with
      netH := setA s1.netH nid { net with driver := none, sinks := [] },
      nlNets := s1.nlNets.erase nid }, ?_, ?_, ?_, ?_, ?_, ?_, ?_, ?_, ?_, ?_, ?_⟩
    · simp only [detachOutputPin, hp, hpn, Option.bind_eq_bind, Option.some_bind, hn]
      rw [hfold]
      simp only [Option.some_bind, hnid1, hn1]
      simp [hmem]
    · simp [lookupA_setA]
    · intro m hm
      have hm2 : ¬ nid = m := fun h => hm h.symm
      simp only [lookupA_setA, hm2, if_false]
      rw [hnet1]
      simp [lookupA_setA, hm2]
    · exact hpins1
    · exact hframe1
    · rw [hn1]
    · exact hc1
    · exact hcl1
    · exact hi1
    · exact ho1
    · exact hx1
  · have herase : s.nlNets.erase nid = s.nlNets := List.erase_of_not_mem hmem
    refine ⟨{ s1 with
      netH := setA s1.netH nid { net with driver := none, sinks := [] } },
      ?_, ?_, ?_, ?_, ?_, ?_, ?_, ?_, ?_, ?_, ?_⟩
    · simp only [detachOutputPin, hp, hpn, Option.bind_eq_bind, Option.some_bind, hn]
      rw [hfold]
      simp only [Option.some_bind, hnid1, hn1]
      simp [hmem]
    · simp [lookupA_setA]
    · intro m hm
      have hm2 : ¬ nid = m := fun h => hm h.symm
      simp only [lookupA_setA, hm2, if_false]
      rw [hnet1]
      simp [lookupA_setA, hm2]
    · exact hpins1
    · exact hframe1
    · rw [hn1, herase]
    · exact hc1
    · exact hcl1
    · exact hi1
    · exact ho1
    · exact hx1

/-- Effect of the input-pin half of remove_cell: each input pin is removed
from its net's sinks; pins outside the list and nets outside M (the set of
nets the input pins sit on) are untouched, and so is the rest of the
state. -/
theorem detach_inputs_frame (pids : List Nat) (M : List Nat) : ∀ s : NLState,
    (∀ pid ∈ pids, ∃ p, lookupA s.pinH pid = some p ∧
      (p.netId = none ∨ ∃ m, m ∈ M ∧ p.netId = some m ∧
        ∃ netm, lookupA s.netH m = some netm ∧ pid ∈ netm.sinks)) →
    ∃ s2, pids.foldlM (fun st pid => detachInputPin st pid) s = some s2 ∧
      (∀ q, q ∉ pids → lookupA s2.pinH q = lookupA s.pinH q) ∧
      (∀ m, m ∉ M → lookupA s2.netH m = lookupA s.netH m) ∧
      s2.cellH = s.cellH ∧ s2.nlNets = s.nlNets ∧ s2.nlCells = s.nlCells ∧
      s2.nlInputs = s.nlInputs ∧ s2.nlOutputs = s.nlOutputs ∧ s2.nextId = s.nextId := by
  induction pids with
  | nil =>
      intro s _
      exact ⟨s, rfl, fun q _ => rfl, fun m _ => rfl, rfl, rfl, rfl, rfl, rfl, rfl⟩
  | cons pid rest ih =>
      intro s hq
      obtain ⟨p, hp, hpd⟩ := hq pid (List.mem_cons_self _ _)
      rcases hpd with hpd | ⟨m, hmM, hpd, netm, hnm, hin⟩
      · have hstep : detachInputPin s pid = some s := by
          simp [detachInputPin, hp, hpd]
        obtain ⟨s2, hfold, hpins2, hnets2, h5, h6, h7, h8, h9, h10⟩ := ih s
          (fun q hq2 => hq q (List.mem_cons_of_mem _ hq2))
        refine ⟨s2, ?_, ?_, hnets2, h5, h6, h7, h8, h9, h10⟩
        · simpa [List.foldlM, hstep] using hfold
        · intro q hq2
          exact hpins2 q (fun h => hq2 (List.mem_cons_of_mem _ h))
      · have hstep := remove_sink_eq s m pid netm p hnm hin hp
        have hdet : detachInputPin s pid = some { s with
            netH := setA s.netH m { netm with sinks := netm.sinks.erase pid },
            pinH := setA s.pinH pid { p with netId := none } } := by
          simp [detachInputPin, hp, hpd, hstep]
        set s1 : NLState := { s with
            netH := setA s.netH m { netm with sinks := netm.sinks.erase pid },
            pinH := setA s.pinH pid { p with netId := none } } with hs1
        have hq1 : ∀ pid2 ∈ rest, ∃ p2, lookupA s1.pinH pid2 = some p2 ∧
            (p2.netId = none ∨ ∃ m2, m2 ∈ M ∧ p2.netId = some m2 ∧
              ∃ netm2, lookupA s1.netH m2 = some netm2 ∧ pid2 ∈ netm2.sinks) := by
          intro pid2 hpid2
          obtain ⟨p2, hp2, hpd2⟩ := hq pid2 (List.mem_cons_of_mem _ hpid2)
          by_cases hpp : pid = pid2
          · subst hpp
            refine ⟨{ p with netId := none }, ?_, Or.inl rfl⟩
            rw [hs1]
            simp [hpd, lookupA_setA]
          · have hlook : lookupA s1.pinH pid2 = some p2 := by
              rw [hs1]
              by_cases hpn2 : p.netId = some m <;>
                simp [hpn2, lookupA_setA, hpp, hp2]
            refine ⟨p2, hlook, ?_⟩
            rcases hpd2 with hpd2 | ⟨m2, hm2M, hpd2, netm2, hnm2, hin2⟩
            · exact Or.inl hpd2
            · refine Or.inr ⟨m2, hm2M, hpd2, ?_⟩
              by_cases hmm : m = m2
              · subst hmm
                have hsame : netm = netm2 := by
                  rw [hnm] at hnm2
                  exact Option.some.inj hnm2
                refine ⟨{ netm with sinks := netm.sinks.erase pid }, ?_, ?_⟩
                · rw [hs1]
                  simp [lookupA_setA]
                · exact (List.mem_erase_of_ne (fun h => hpp h.symm)).mpr (hsame ▸ hin2)
              · refine ⟨netm2, ?_, hin2⟩
                rw [hs1]
                simp [lookupA_setA, hmm, hnm2]
        obtain ⟨s2, hfold, hpins2, hnets2, h5, h6, h7, h8, h9, h10⟩ := ih s1 hq1
        refine ⟨s2, ?_, ?_, ?_, ?_, ?_, ?_, ?_, ?_, ?_⟩
        · simpa [List.foldlM, hdet, ← hs1] using hfold
        · intro q hq2
          have hqr : q ∉ rest := fun h => hq2 (List.mem_cons_of_mem _ h)
          have hqq : ¬ pid = q := fun h => hq2 (h ▸ List.mem_cons_self _ _)
          rw [hpins2 q hqr, hs1]
          by_cases hpn2 : p.netId = some m <;> simp [hpn2, lookupA_setA, hqq]
        · intro m2 hm2
          have hmm : ¬ m = m2 := fun h => hm2 (h ▸ hmM)
          rw [hnets2 m2 hm2, hs1]
          simp [lookupA_setA, hmm]
        · rw [h5, hs1]
        · rw [h6, hs1]
        · rw [h7, hs1]
        · rw [h8, hs1]
        · rw [h9, hs1]
        · rw [h10, hs1]

/-- Claim C10: Netlist.remove_cell does not merely detach the removed
cell's own pins.  For the cell's output pin attached to a net, it
disconnects every sink pin of that net (each such pin's net becomes None)
and deletes the net from the netlist, even when the net's driver field has
already been re-pointed to another cell's pin (the hypothesis places no
constraint on `net.driver`); nets not attached to one of the removed cell's
pins, and their drivers and sinks, are unchanged, as are pins that are
neither the cell's own nor sinks of the destroyed net. -/
theorem remove_cell_c10 (s : NLState) (cid : Nat) (cell : CellObj)
    (oname : String) (py ny : Nat) (pout : PinObj) (net : NetObj) (M : List Nat)
    (hc : lookupA s.cellH cid = some cell)
    (hout : cell.outputs = [(oname, py)])
    (hpy : lookupA s.pinH py = some pout)
    (hpyn : pout.netId = some ny)
    (hnet : lookupA s.netH ny = some net)
    (hsinks : ∀ q ∈ net.sinks, ∃ p, lookupA s.pinH q = some p ∧ p.netId = some ny)
    (hin : ∀ pid ∈ cell.inputs.map Prod.snd, ∃ p, lookupA s.pinH pid = some p ∧
      (p.netId = none ∨ ∃ m, m ∈ M ∧ p.netId = some m ∧
        ∃ netm, lookupA s.netH m = some netm ∧ pid ∈ netm.sinks))
    (hnyM : ny ∉ M)
    (hpyin : py ∉ cell.inputs.map Prod.snd)
    (hnodN : s.nlNets.Nodup) (hnodC : s.nlCells.Nodup) :
    ∃ s2, remove_cell s cid = some s2 ∧
      lookupA s2.netH ny = some { net with driver := none, sinks := [] } ∧
      ny ∉ s2.nlNets ∧
      (∀ q ∈ net.sinks, ∃ p, lookupA s.pinH q = some p ∧
        lookupA s2.pinH q = some { p with netId := none }) ∧
      (∀ m, m ∉ M → ¬ m = ny → lookupA s2.netH m = lookupA s.netH m ∧
        (m ∈ s2.nlNets ↔ m ∈ s.nlNets)) ∧
      (∀ q, q ∉ cell.inputs.map Prod.snd → q ∉ net.sinks →
        lookupA s2.pinH q = lookupA s.pinH q) ∧
      cid ∉ s2.nlCells ∧
      s2.cellH = s.cellH ∧ s2.nextId = s.nextId := by
  obtain ⟨s1, hfold1, hpins1, hnets1, hc1, hn1, hcl1, hi1, ho1, hx1⟩ :=
    detach_inputs_frame (cell.inputs.map Prod.snd) M s hin
  have hdisj : ∀ q ∈ net.sinks, q ∉ cell.inputs.map Prod.snd := by
    intro q hq hqin
    obtain ⟨p, hp, hpn2⟩ := hsinks q hq
    obtain ⟨p2, hp2, hpd2⟩ := hin q hqin
    rw [hp] at hp2
    have hpe : p = p2 := Option.some.inj hp2
    rcases hpd2 with hnone | ⟨m, hmM, hpm, _⟩
    · rw [← hpe, hpn2] at hnone
      exact Option.noConfusion hnone
    · rw [← hpe, hpn2] at hpm
      exact hnyM ((Option.some.inj hpm) ▸ hmM)
  have hpy1 : lookupA s1.pinH py = some pout := by
    rw [hpins1 py hpyin]; exact hpy
  have hnet1 : lookupA s1.netH ny = some net := by
    rw [hnets1 ny hnyM]; exact hnet
  have hq1 : ∀ q ∈ net.sinks, ∃ p, lookupA s1.pinH q = some p ∧
      (p.netId = some ny ∨ p.netId = none) := by
    intro q hq
    obtain ⟨p, hp, hpn2⟩ := hsinks q hq
    exact ⟨p, by rw [hpins1 q (hdisj q hq)]; exact hp, Or.inl hpn2⟩
  obtain ⟨s2, hdet, hnid2, hnetf2, hpins2, hpinf2, hnlN2, hc2, hcl2, hi2, ho2, hx2⟩ :=
    detachOutputPin_spec s1 py ny pout net hpy1 hpyn hnet1 hq1
  have hcells2 : s2.nlCells = s.nlCells := by rw [hcl2, hcl1]
  have hnlN : s2.nlNets = s.nlNets.erase ny := by rw [hnlN2, hn1]
  have houtfold : (cell.outputs.map Prod.snd).foldlM
      (fun st pid => detachOutputPin st pid) s1 = some s2 := by
    rw [hout]
    simp [List.foldlM, hdet]
  by_cases hcc : cid ∈ s.nlCells
  · refine ⟨{ s2 with
      nlCells := s2.nlCells.erase cid,
      nlInputs := s2.nlInputs.filter (fun kv => decide (kv.2 ≠ cid)),
      nlOutputs := s2.nlOutputs.filter (fun kv => decide (kv.2 ≠ cid)) },
      ?_, ?_, ?_, ?_, ?_, ?_, ?_, ?_, ?_⟩
    · simp only [remove_cell, hc, Option.bind_eq_bind, Option.some_bind]
      rw [hfold1]
      simp only [Option.some_bind]
      rw [houtfold]
      simp only [Option.some_bind]
      rw [hcells2]
      simp [hcc]
    · exact hnid2
    · rw [hnlN]
      intro h
      exact absurd rfl ((List.Nodup.mem_erase_iff hnodN).mp h).1
    · intro q hq
      obtain ⟨p, hp1, hp2⟩ := hpins2 q hq
      refine ⟨p, ?_, hp2⟩
      rw [← hp1]
      exact (hpins1 q (hdisj q hq)).symm
    · intro m hmM hmny
      constructor
      · rw [hnetf2 m hmny, hnets1 m hmM]
      · rw [hnlN]
        exact List.mem_erase_of_ne hmny
    · intro q hqin hqs
      rw [hpinf2 q hqs, hpins1 q hqin]
    · rw [hcells2]
      intro h
      exact absurd rfl ((List.Nodup.mem_erase_iff hnodC).mp h).1
    · rw [hc2, hc1]
    · rw [hx2, hx1]
  · refine ⟨{ s2 with
      nlInputs := s2.nlInputs.filter (fun kv => decide (kv.2 ≠ cid)),
      nlOutputs := s2.nlOutputs.filter (fun kv => decide (kv.2 ≠ cid)) },
      ?_, ?_, ?_, ?_, ?_, ?_, ?_, ?_, ?_⟩
    · simp only [remove_cell, hc, Option.bind_eq_bind, Option.some_bind]
      rw [hfold1]
      simp only [Option.some_bind]
      rw [houtfold]
      simp only [Option.some_bind]
      rw [hcells2]
      simp [hcc]
      exact hcells2
    · exact hnid2
    · rw [hnlN]
      intro h
      exact absurd rfl ((List.Nodup.mem_erase_iff hnodN).mp h).1
    · intro q hq
      obtain ⟨p, hp1, hp2⟩ := hpins2 q hq
      refine ⟨p, ?_, hp2⟩
      rw [← hp1]
      exact (hpins1 q (hdisj q hq)).symm
    · intro m hmM hmny
      constructor
      · rw [hnetf2 m hmny, hnets1 m hmM]
      · rw [hnlN]
        exact List.mem_erase_of_ne hmny
    · intro q hqin hqs
      rw [hpinf2 q hqs, hpins1 q hqin]
    · rw [hcells2]
      exact hcc
    · rw [hc2, hc1]
    · rw [hx2, hx1]

/-- Pin and net records for the C10 witness state. -/
def c10pin2 : PinObj := ⟨"A", PortDir.INPUT, ⟨0, 0⟩, some 1, some 20⟩

def c10pin4 : PinObj := ⟨"Y", PortDir.OUTPUT, ⟨0, 0⟩, some 3, some 20⟩

def c10pin6 : PinObj := ⟨"A", PortDir.INPUT, ⟨0, 0⟩, some 7, some 30⟩

def c10pin99 : PinObj := ⟨"Y", PortDir.OUTPUT, ⟨0, 0⟩, some 8, some 41⟩

def c10pout : PinObj := ⟨"Y", PortDir.OUTPUT, ⟨0, 0⟩, some 1, some 30⟩

def c10net20 : NetObj := ⟨"n20", ⟨0, 0⟩, some 4, [2]⟩

/-- The output net of the C10 witness: its driver has been re-pointed to
pin 99, which belongs to a different cell. -/
def c10net : NetObj := ⟨"n30", ⟨0, 0⟩, some 99, [6]⟩

def c10cell : CellObj := ⟨"add", CellOp.ADD, [("A", 2)], [("Y", 5)], none, none⟩

/-- The C10 witness state: cell 1 with input pin 2 on net 20 and output
pin 5 on net 30; net 30's driver has been re-pointed to pin 99 of another
cell; pin 6 is the sink of net 30; net 40 is an untouched frame net. -/
def c10state : NLState :=
  { pinH := [(2, c10pin2), (5, c10pout), (4, c10pin4), (6, c10pin6), (99, c10pin99)],
    netH := [(20, c10net20), (30, c10net), (40, ⟨"n40", ⟨0, 0⟩, none, []⟩)],
    cellH := [(1, c10cell)],
    nlName := "top", nlCells := [1], nlNets := [20, 30, 40],
    nlInputs := [], nlOutputs := [], nextId := 200 }

/-- Witness for claim C10: `remove_cell_c10` applied to the concrete state
`c10state`, discharging every hypothesis on concrete data. -/
theorem remove_cell_c10_witness :
    ∃ s2, remove_cell c10state 1 = some s2 ∧
      lookupA s2.netH 30 = some { c10net with driver := none, sinks := [] } ∧
      (30 : Nat) ∉ s2.nlNets ∧
      (∀ q ∈ c10net.sinks, ∃ p, lookupA c10state.pinH q = some p ∧
        lookupA s2.pinH q = some { p with netId := none }) ∧
      (∀ m, m ∉ [20] → ¬ m = 30 → lookupA s2.netH m = lookupA c10state.netH m ∧
        (m ∈ s2.nlNets ↔ m ∈ c10state.nlNets)) ∧
      (∀ q, q ∉ c10cell.inputs.map Prod.snd → q ∉ c10net.sinks →
        lookupA s2.pinH q = lookupA c10state.pinH q) ∧
      (1 : Nat) ∉ s2.nlCells ∧
      s2.cellH = c10state.cellH ∧ s2.nextId = c10state.nextId :=
  remove_cell_c10 c10state 1 c10cell "Y" 5 30 c10pout c10net [20]
    (by decide) (by decide) (by decide) (by decide) (by decide)
    (by intro q hq
        simp [c10net] at hq
        subst hq
        exact ⟨c10pin6, by decide, by decide⟩)
    (by intro pid hpid
        simp [c10cell] at hpid
        subst hpid
        exact ⟨c10pin2, by decide,
          Or.inr ⟨20, by decide, by decide, c10net20, by decide, by decide⟩⟩)
    (by decide) (by decide) (by decide) (by decide)

/-! ## The optimizer (src/ir/optimizer.py)

Each pass returns `Option (Nat × NLState)`: the statistics counter it
reports and the updated state; `none` models a Python exception (or, for
the two passes with unbounded loops, exhausted fuel, which no theorem
relies on). -/

/-- Python `d.get("value", 0)` on a cell's attribute dict. -/
def valueOf (cell : CellObj) : Int :=
  match cell.valueAttr with
  | some v => v
  | none => 0

/-- NetlistOptimizer._get_constant_inputs: the constant value feeding each
input pin; inner `none` is the Python None for a non-constant input, outer
`none` a crash (driver pin without a cell). -/
def get_constant_inputs (s : NLState) : List (String × Nat) →
    Option (Option (List (String × Int)))
  | [] => some (some [])
  | (nm, pid) :: rest => do
      let pin ← lookupA s.pinH pid
      match pin.netId with
      | none => some none
      | some nid => do
          let net ← lookupA s.netH nid
          match net.driver with
          | none => some none
          | some dp => do
              let dpin ← lookupA s.pinH dp
              match dpin.cellId with
              | none => none
              | some dcid => do
                  let dcell ← lookupA s.cellH dcid
                  if dcell.op = CellOp.CONST then do
                    let r ← get_constant_inputs s rest
                    some (r.map (fun l => (nm, valueOf dcell) :: l))
                  else some none

/-- Python `const_inputs.get(name, 0)`. -/
def ciGet (ci : List (String × Int)) (nm : String) : Int :=
  match lookupA ci nm with
  | some v => v
  | none => 0

/-- Python `x & ((1 << w) - 1)`, i.e. reduction modulo `2^w`; fails for a
negative width as Python's shift would. -/
def pyMask (x : Int) (w : Int) : Option Int :=
  if w < 0 then none else some (x % ((2 : Int) ^ w.toNat))

/-- Width of the single output pin of a cell (cell.output.width.width). -/
def outputWidth (s : NLState) (cell : CellObj) : Option Int := do
  let opid ← cellOutput cell
  let opin ← lookupA s.pinH opid
  some opin.width.width

/-- NetlistOptimizer._evaluate_cell: inner `none` is the Python None for an
op the evaluator does not handle. -/
def evaluate_cell (s : NLState) (cell : CellObj) (ci : List (String × Int)) :
    Option (Option Int) :=
  match cell.op with
  | CellOp.NOT => do
      let w ← outputWidth s cell
      let v ← pyMask (-(ciGet ci "A") - 1) w
      some (some v)
  | CellOp.BUF => some (some (ciGet ci "A"))
  | CellOp.NEG => do
      let w ← outputWidth s cell
      let v ← pyMask (-(ciGet ci "A")) w
      some (some v)
  | CellOp.AND => some (some (Int.land (ciGet ci "A") (ciGet ci "B")))
  | CellOp.OR => some (some (Int.lor (ciGet ci "A") (ciGet ci "B")))
  | CellOp.XOR => some (some (Int.xor (ciGet ci "A") (ciGet ci "B")))
  | CellOp.NAND => do
      let w ← outputWidth s cell
      let v ← pyMask (-(Int.land (ciGet ci "A") (ciGet ci "B")) - 1) w
      some (some v)
  | CellOp.NOR => do
      let w ← outputWidth s cell
      let v ← pyMask (-(Int.lor (ciGet ci "A") (ciGet ci "B")) - 1) w
      some (some v)
  | CellOp.XNOR => do
      let w ← outputWidth s cell
      let v ← pyMask (-(Int.xor (ciGet ci "A") (ciGet ci "B")) - 1) w
      some (some v)
  | CellOp.ADD => do
      let w ← outputWidth s cell
      let v ← pyMask (ciGet ci "A" + ciGet ci "B") w
      some (some v)
  | CellOp.SUB => do
      let w ← outputWidth s cell
      let v ← pyMask (ciGet ci "A" - ciGet ci "B") w
      some (some v)
  | CellOp.EQ => some (some (if ciGet ci "A" = ciGet ci "B" then 1 else 0))
  | CellOp.NEQ => some (some (if ciGet ci "A" = ciGet ci "B" then 0 else 1))
  | CellOp.LT => some (some (if ciGet ci "A" < ciGet ci "B" then 1 else 0))
  | CellOp.LE => some (some (if ciGet ci "A" ≤ ciGet ci "B" then 1 else 0))
  | CellOp.GT => some (some (if ciGet ci "B" < ciGet ci "A" then 1 else 0))
  | CellOp.GE => some (some (if ciGet ci "B" ≤ ciGet ci "A" then 1 else 0))
  | CellOp.SHL => do
      let w ← outputWidth s cell
      let b := ciGet ci "B"
      if b < 0 then none
      else do
        let v ← pyMask (ciGet ci "A" * (2 : Int) ^ b.toNat) w
        some (some v)
  | CellOp.SHR =>
      let b := ciGet ci "B"
      if b < 0 then none
      else some (some (Int.fdiv (ciGet ci "A") ((2 : Int) ^ b.toNat)))
  | CellOp.MUX =>
      some (some (if ciGet ci "S" = 0 then ciGet ci "A" else ciGet ci "B"))
  | _ => some none

/-- NetlistOptimizer._replace_with_constant (optimizer.py lines 218-239):
build the CONST cell, re-point the output net's driver at it, add it to the
netlist, then remove the old cell (which, through remove_cell, destroys the
very net that was just re-pointed). -/
def replace_with_constant (s : NLState) (cid : Nat) (value : Int) : Option NLState := do
  let cell ← lookupA s.cellH cid
  let (ncid, s) := freshId s
  let ncell : CellObj := ⟨"const_" ++ toString value, CellOp.CONST, [], [], some value, none⟩
  let s := { s with cellH := setA s.cellH ncid ncell }
  let opid ← cellOutput cell
  let opin ← lookupA s.pinH opid
  match opin.netId with
  | none => some s
  | some onid => do
      let onet ← lookupA s.netH onid
      let (cpid, s) ← add_output s ncid "Y" onet.width
      let s ← set_driver s onid cpid
      let s := add_cell_nl s ncid
      remove_cell s cid

/-- One scan of constant_propagation: the (cell, value) pairs to replace. -/
def scan_const_cells (s : NLState) : List Nat → Option (List (Nat × Int))
  | [] => some []
  | cid :: rest => do
      let cell ← lookupA s.cellH cid
      if cell.op = CellOp.CONST then scan_const_cells s rest
      else if cell.op = CellOp.MODULE_INPUT ∨ cell.op = CellOp.MODULE_OUTPUT then
        scan_const_cells s rest
      else do
        let ci ← get_constant_inputs s cell.inputs
        match ci with
        | none => scan_const_cells s rest
        | some l =>
            if l.length = cell.inputs.length then do
              let ev ← evaluate_cell s cell l
              match ev with
              | none => scan_const_cells s rest
              | some v => do
                  let r ← scan_const_cells s rest
                  some ((cid, v) :: r)
            else scan_const_cells s rest

/-- The while-changed loop of constant_propagation, with fuel. -/
def constant_propagation_loop : Nat → NLState → Nat → Option (Nat × NLState)
  | 0, _, _ => none
  | fuel + 1, s, acc => do
      let repls ← scan_const_cells s s.nlCells
      match repls with
      | [] => some (acc, s)
      | _ => do
          let s2 ← repls.foldlM (fun st pr => replace_with_constant st pr.1 pr.2) s
          constant_propagation_loop fuel s2 (acc + repls.length)

/-- NetlistOptimizer.constant_propagation.  Each productive iteration
strictly decreases the number of non-CONST cells, so `|cells| + 1` rounds
of fuel suffice. -/
def constant_propagation (s : NLState) : Option (Nat × NLState) :=
  constant_propagation_loop (s.nlCells.length + 1) s 0

/-- One worklist step bound for _find_live_cells. -/
def liveFuel (s : NLState) : Nat :=
  s.nlOutputs.length + (s.cellH.length + 1) * (s.pinH.length + 1) + 1

/-- The backward traversal of NetlistOptimizer._find_live_cells
(`to_visit.pop()` pops from the end of the Python list). -/
def find_live_loop (s : NLState) : Nat → List Nat → List Nat → Option (List Nat)
  | 0, _, _ => none
  | fuel + 1, stack, live =>
      match stack.getLast? with
      | none => some live
      | some cid =>
          let stack := stack.dropLast
          if cid ∈ live then find_live_loop s fuel stack live
          else do
            let cell ← lookupA s.cellH cid
            let live := live ++ [cid]
            let pushes ← cell.inputs.foldlM (fun (acc : List Nat) nmpid => do
                let pin ← lookupA s.pinH nmpid.2
                match pin.netId with
                | none => some acc
                | some nid => do
                    let net ← lookupA s.netH nid
                    match net.driver with
                    | none => some acc
                    | some dp => do
                        let dpin ← lookupA s.pinH dp
                        match dpin.cellId with
                        | none => some acc
                        | some dcid =>
                            if dcid ∈ live then some acc
                            else some (acc ++ [dcid])) []
            find_live_loop s fuel (stack ++ pushes) live

/-- NetlistOptimizer._find_live_cells. -/
def find_live_cells (s : NLState) : Option (List Nat) :=
  find_live_loop s (liveFuel s) (s.nlOutputs.map Prod.snd) []

/-- NetlistOptimizer.dead_code_elimination. -/
def dead_code_elimination (s : NLState) : Option (Nat × NLState) := do
  let live ← find_live_cells s
  let r ← s.nlCells.foldlM (fun (acc : Nat × NLState) cid => do
      let (cnt, st) := acc
      if cid ∈ live then some acc
      else do
        let cell ← lookupA st.cellH cid
        if cell.op = CellOp.MODULE_INPUT ∨ cell.op = CellOp.MODULE_OUTPUT then some acc
        else do
          let st2 ← remove_cell st cid
          some (cnt + 1, st2)) (0, s)
  some r

/-- Lexicographic ≤ on code-point lists, Python string comparison. -/
def lexLe : List Char → List Char → Bool
  | [], _ => true
  | _ :: _, [] => false
  | a :: as2, b :: bs =>
      if a < b then true else if a = b then lexLe as2 bs else false

/-- Insert a string into an already lexLe-sorted list of strings. -/
def insertSorted (a : String) : List String → List String
  | [] => [a]
  | b :: bs => if lexLe a.data b.data then a :: b :: bs else b :: insertSorted a bs

/-- Models Python sorted() on a list of strings (insertion sort). -/
def sortedStrings : List String → List String
  | [] => []
  | a :: rest => insertSorted a (sortedStrings rest)

/-- NetlistOptimizer._cell_signature: op plus, per input pin in sorted name
order, the id of the driving cell.  Inner `none` is the Python None for an
unconnected input. -/
def signature_go (s : NLState) (cell : CellObj) : List String →
    Option (Option (List (String × Nat)))
  | [] => some (some [])
  | nm :: rest => do
      let pid ← lookupA cell.inputs nm
      let pin ← lookupA s.pinH pid
      match pin.netId with
      | none => some none
      | some nid => do
          let net ← lookupA s.netH nid
          match net.driver with
          | none => some none
          | some dp => do
              let dpin ← lookupA s.pinH dp
              match dpin.cellId with
              | none => none
              | some dcid => do
                  let r ← signature_go s cell rest
                  some (r.map (fun l => (nm, dcid) :: l))

/-- NetlistOptimizer._cell_signature. -/
def cell_signature (s : NLState) (cell : CellObj) :
    Option (Option (CellOp × List (String × Nat))) := do
  let r ← signature_go s cell (sortedStrings (cell.inputs.map Prod.fst))
  some (r.map (fun l => (cell.op, l)))

/-- NetlistOptimizer._merge_cells: move every sink of the duplicate's
output net onto the kept cell's output net, then remove the duplicate. -/
def merge_cells (s : NLState) (keepId removeId : Nat) : Option NLState := do
  let keep ← lookupA s.cellH keepId
  let remove2 ← lookupA s.cellH removeId
  let kout ← cellOutput keep
  let rout ← cellOutput remove2
  let kpin ← lookupA s.pinH kout
  let rpin ← lookupA s.pinH rout
  match kpin.netId, rpin.netId with
  | some knid, some rnid => do
      let rnet ← lookupA s.netH rnid
      let s ← rnet.sinks.foldlM (fun st q => do
          let rnet2 ← lookupA st.netH rnid
          if q ∈ rnet2.sinks then do
            let st := { st with
              netH := setA st.netH rnid { rnet2 with sinks := rnet2.sinks.erase q } }
            add_sink st knid q
          else none) s
      remove_cell s removeId
  | _, _ => some s

/-- NetlistOptimizer.common_subexpression_elimination. -/
def common_subexpression_elimination (s : NLState) : Option (Nat × NLState) := do
  let r ← s.nlCells.foldlM
      (fun (acc : List ((CellOp × List (String × Nat)) × Nat) × Nat × NLState) cid => do
      let (sigs, elim, st) := acc
      let cell ← lookupA st.cellH cid
      if cell.op = CellOp.MODULE_INPUT ∨ cell.op = CellOp.MODULE_OUTPUT ∨
         cell.op = CellOp.CONST then some acc
      else if cell.op = CellOp.DFF ∨ cell.op = CellOp.DFFR ∨
              cell.op = CellOp.MEMRD ∨ cell.op = CellOp.MEMWR then some acc
      else do
        let sig ← cell_signature st cell
        match sig with
        | none => some acc
        | some key =>
            match lookupA sigs key with
            | some keepId => do
                let st2 ← merge_cells st keepId cid
                some (sigs, elim + 1, st2)
            | none => some (setA sigs key cid, elim, st)) ([], 0, s)
  some (r.2.1, r.2.2)

/-- NetlistOptimizer._replace_with_input: move the output net's sinks onto
the chosen input's net and remove the cell. -/
def replace_with_input (s : NLState) (cid : Nat) (inputName : String) :
    Option NLState := do
  let cell ← lookupA s.cellH cid
  match lookupA cell.inputs inputName with
  | none => some s
  | some ipid => do
      let ipin ← lookupA s.pinH ipid
      match ipin.netId with
      | none => some s
      | some inid => do
          let opid ← cellOutput cell
          let opin ← lookupA s.pinH opid
          match opin.netId with
          | none => some s
          | some onid => do
              let onet ← lookupA s.netH onid
              let s ← onet.sinks.foldlM (fun st q => do
                  let onet2 ← lookupA st.netH onid
                  if q ∈ onet2.sinks then do
                    let st := { st with
                      netH := setA st.netH onid { onet2 with sinks := onet2.sinks.erase q } }
                    add_sink st inid q
                  else none) s
              remove_cell s cid

/-- One pin check of identity_elimination; the result is the other-pin name
when this pin is a constant identity element for the cell's op. -/
def identity_check_pin (s : NLState) (cell : CellObj) (nm : String) (pid : Nat) :
    Option (Option String) := do
  let pin ← lookupA s.pinH pid
  match pin.netId with
  | none => some none
  | some nid => do
      let net ← lookupA s.netH nid
      match net.driver with
      | none => some none
      | some dp => do
          let dpin ← lookupA s.pinH dp
          match dpin.cellId with
          | none => none
          | some dcid => do
              let driver ← lookupA s.cellH dcid
              if driver.op = CellOp.CONST then
                let cv := valueOf driver
                let other : Option String :=
                  if nm = "A" ∧ (lookupA cell.inputs "B").isSome then some "B"
                  else if nm = "B" ∧ (lookupA cell.inputs "A").isSome then some "A"
                  else none
                match cell.op with
                | CellOp.AND => do
                    let w ← outputWidth s cell
                    if w < 0 then none
                    else
                      if cv = (2 : Int) ^ w.toNat - 1 ∧ other.isSome then some other
                      else some none
                | CellOp.OR =>
                    if cv = 0 ∧ other.isSome then some other else some none
                | CellOp.XOR =>
                    if cv = 0 ∧ other.isSome then some other else some none
                | CellOp.ADD =>
                    if cv = 0 ∧ other.isSome then some other else some none
                | CellOp.SUB =>
                    if cv = 0 ∧ nm = "B" ∧ other.isSome then some other else some none
                | CellOp.SHL =>
                    if cv = 0 ∧ nm = "B" ∧ other.isSome then some other else some none
                | CellOp.SHR =>
                    if cv = 0 ∧ nm = "B" ∧ other.isSome then some other else some none
                | _ => some none
              else some none

/-- Scan of one cell in identity_elimination (the Python loop breaks at the
first matching input pin). -/
def identity_scan_cell (s : NLState) (cell : CellObj) : List (String × Nat) →
    Option (Option String)
  | [] => some none
  | (nm, pid) :: rest => do
      let r ← identity_check_pin s cell nm pid
      match r with
      | some other => some (some other)
      | none => identity_scan_cell s cell rest

/-- NetlistOptimizer.identity_elimination. -/
def identity_elimination (s : NLState) : Option (Nat × NLState) := do
  let repls ← s.nlCells.foldlM (fun (acc : List (String × Nat)) cid => do
      let cell ← lookupA s.cellH cid
      if cell.op = CellOp.AND ∨ cell.op = CellOp.OR ∨ cell.op = CellOp.XOR ∨
         cell.op = CellOp.ADD ∨ cell.op = CellOp.SUB ∨ cell.op = CellOp.SHL ∨
         cell.op = CellOp.SHR then do
        let r ← identity_scan_cell s cell cell.inputs
        match r with
        | some other => some (acc ++ [(other, cid)])
        | none => some acc
      else some acc) []
  let s2 ← repls.foldlM (fun st pr => replace_with_input st pr.2 pr.1) s
  some (repls.length, s2)

/-- NetlistOptimizer.algebraic_simplification.  A collected entry is
`(true, cid, firstInputName)` for the x-op-x identity rewrites and
`(false, cid, "")` for the rewrites to constant 0. -/
def algebraic_simplification (s : NLState) : Option (Nat × NLState) := do
  let repls ← s.nlCells.foldlM (fun (acc : List (Bool × Nat × String)) cid => do
      let cell ← lookupA s.cellH cid
      match cell.inputs with
      | [(na, pa), (_, pb)] => do
          let pina ← lookupA s.pinH pa
          let pinb ← lookupA s.pinH pb
          match pina.netId, pinb.netId with
          | some nida, some nidb => do
              let neta ← lookupA s.netH nida
              let netb ← lookupA s.netH nidb
              match neta.driver, netb.driver with
              | some da, some db => do
                  let dpa ← lookupA s.pinH da
                  let dpb ← lookupA s.pinH db
                  match dpa.cellId, dpb.cellId with
                  | some ca, some cb =>
                      if ca = cb then
                        if cell.op = CellOp.AND ∨ cell.op = CellOp.OR then
                          some (acc ++ [(true, cid, na)])
                        else if cell.op = CellOp.XOR ∨ cell.op = CellOp.SUB then
                          some (acc ++ [(false, cid, "")])
                        else some acc
                      else some acc
                  | _, _ => none
              | _, _ => some acc
          | _, _ => some acc
      | _ => some acc) []
  let s2 ← repls.foldlM (fun st r =>
      if r.1 then replace_with_input st r.2.1 r.2.2
      else replace_with_constant st r.2.1 0) s
  some (repls.length, s2)

/-- NetlistOptimizer._transform_to_shift. -/
def transform_to_shift (s : NLState) (cid : Nat) (shiftOp : CellOp)
    (inputName : String) (shiftAmount : Int) : Option NLState := do
  let cell ← lookupA s.cellH cid
  let ipid ← lookupA cell.inputs inputName
  let ipin ← lookupA s.pinH ipid
  let opid ← cellOutput cell
  let opin ← lookupA s.pinH opid
  match ipin.netId, opin.netId with
  | some inid, some onid => do
      let inet ← lookupA s.netH inid
      let onet ← lookupA s.netH onid
      let (shcid, s) := freshId s
      let shcell : CellObj := ⟨"shift_" ++ cell.name, shiftOp, [], [], none, none⟩
      let s := { s with cellH := setA s.cellH shcid shcell }
      let (apid, s) ← add_input s shcid "A" inet.width
      let s ← add_sink s inid apid
      let (ccid, s) := freshId s
      let ccell : CellObj := ⟨"const_" ++ toString shiftAmount, CellOp.CONST, [], [],
        some shiftAmount, none⟩
      let s := { s with cellH := setA s.cellH ccid ccell }
      let (cpid, s) ← add_output s ccid "Y" ⟨0, 0⟩
      let (cnid, s) := freshId s
      let cnet : NetObj := ⟨"_shift_amt_" ++ toString shiftAmount, ⟨0, 0⟩, none, []⟩
      let s := { s with netH := setA s.netH cnid cnet }
      let s ← set_driver s cnid cpid
      let s := add_net_nl s cnid
      let s := add_cell_nl s ccid
      let (bpid, s) ← add_input s shcid "B" ⟨0, 0⟩
      let s ← add_sink s cnid bpid
      let (opid2, s) ← add_output s shcid "Y" onet.width
      let s ← set_driver s onid opid2
      let s := add_cell_nl s shcid
      remove_cell s cid
  | _, _ => some s

/-- One pin check of strength_reduction: a positive power-of-two constant
on one input of a MUL. -/
def strength_scan_cell (s : NLState) : List (String × Nat) →
    Option (Option (String × Int))
  | [] => some none
  | (nm, pid) :: rest => do
      let pin ← lookupA s.pinH pid
      match pin.netId with
      | none => strength_scan_cell s rest
      | some nid => do
          let net ← lookupA s.netH nid
          match net.driver with
          | none => strength_scan_cell s rest
          | some dp => do
              let dpin ← lookupA s.pinH dp
              match dpin.cellId with
              | none => none
              | some dcid => do
                  let driver ← lookupA s.cellH dcid
                  if driver.op = CellOp.CONST then
                    let v := valueOf driver
                    if 0 < v ∧ Int.land v (v - 1) = 0 then
                      let shiftAmount : Int := Nat.size (v - 1).toNat
                      let other := if nm = "A" then "B" else "A"
                      some (some (other, shiftAmount))
                    else strength_scan_cell s rest
                  else strength_scan_cell s rest

/-- NetlistOptimizer.strength_reduction. -/
def strength_reduction (s : NLState) : Option (Nat × NLState) := do
  let repls ← s.nlCells.foldlM (fun (acc : List (Nat × String × Int)) cid => do
      let cell ← lookupA s.cellH cid
      if cell.op = CellOp.MUL then do
        let r ← strength_scan_cell s cell.inputs
        match r with
        | some (other, amt) => some (acc ++ [(cid, other, amt)])
        | none => some acc
      else some acc) []
  let s2 ← repls.foldlM (fun st r =>
      transform_to_shift st r.1 CellOp.SHL r.2.1 r.2.2) s
  some (repls.length, s2)

/-- NetlistOptimizer.optimize: run the passes in order (the default list
when none is given) and collect the statistics dict. -/
def optimize (s : NLState) (passes : Option (List String)) :
    Option (List (String × Nat) × NLState) := do
  let ps := match passes with
    | none => ["identity", "algebraic", "constant_prop", "strength_reduce",
               "dead_code", "cse"]
    | some p => p
  ps.foldlM (fun (acc : List (String × Nat) × NLState) pname => do
      let (stats, st) := acc
      if pname = "constant_prop" then do
        let (n, st2) ← constant_propagation st
        some (setA stats "constants_propagated" n, st2)
      else if pname = "dead_code" then do
        let (n, st2) ← dead_code_elimination st
        some (setA stats "dead_cells_removed" n, st2)
      else if pname = "cse" then do
        let (n, st2) ← common_subexpression_elimination st
        some (setA stats "common_subexprs_eliminated" n, st2)
      else if pname = "identity" then do
        let (n, st2) ← identity_elimination st
        some (setA stats "identities_eliminated" n, st2)
      else if pname = "algebraic" then do
        let (n, st2) ← algebraic_simplification st
        some (setA stats "algebraic_simplified" n, st2)
      else if pname = "strength_reduce" then do
        let (n, st2) ← strength_reduction st
        some (setA stats "strength_reduced" n, st2)
      else some acc) ([], s)

/-! ## The elaborator (src/hdl_parser/elaborator.py)

AST node types cover the constructs the claims exercise: number literals,
identifiers and binary operations; net declarations without unpacked array
dimensions, continuous assignments and always blocks whose statements are
non-blocking or blocking assignments.  The modelled modules carry no
parameters, so `_resolve_parameters` has nothing to do and
`_eval_const_expr`'s parameter lookup always fails.  Elaboration runs in
`Except String`: an `ElaborationError...` message models the Python
exception of the same name, and `internalError` a heap lookup that cannot
fail on states the elaborator itself built. -/

/-- Expressions (ast_nodes.py NumberLiteral, Identifier, BinaryOp). -/
inductive VExpr
  | num (value : Int) (width : Int)
  | ident (name : String)
  | binop (op : String) (left : VExpr) (right : VExpr)
deriving DecidableEq

/-- A packed range [msb:lsb] (ast_nodes.py Range). -/
structure VRange where
  msb : VExpr
  lsb : VExpr
deriving DecidableEq

/-- A module port (ast_nodes.py PortDecl). -/
structure VPort where
  direction : String
  name : String
  range : Option VRange
deriving DecidableEq

/-- Statements in always blocks. -/
inductive VStmt
  | nonBlocking (lhs rhs : VExpr)
  | blockingStmt (lhs rhs : VExpr)
deriving DecidableEq

/-- Module body items. -/
inductive VItem
  | netDecl (net_type : String) (range : Option VRange) (name : String)
      (array_dims : List VRange)
  | contAssign (lhs rhs : VExpr)
  | alwaysBlock (sensitivity : List SensItem) (body : List VStmt)
deriving DecidableEq

/-- A module (ast_nodes.py Module), without parameters. -/
structure VModule where
  name : String
  ports : List VPort
  body : List VItem
deriving DecidableEq

/-- Elaborator state: the netlist plus the signal-name-to-net map. -/
structure ESt where
  nl : NLState
  net_map : List (String × Nat)
deriving DecidableEq

/-- Lift a heap operation that cannot fail during elaboration. -/
def liftO {α : Type} : Option α → Except String α
  | some a => .ok a
  | none => .error "internalError"

/-- Elaborator._eval_const_expr for modules without parameters. -/
def eval_const_expr : VExpr → Except String Int
  | .num v _ => .ok v
  | .ident nm => .error ("ElaborationError: Undefined parameter: " ++ nm)
  | .binop op l r => do
      let a ← eval_const_expr l
      let b ← eval_const_expr r
      if op = "+" then .ok (a + b)
      else if op = "-" then .ok (a - b)
      else if op = "*" then .ok (a * b)
      else if op = "/" then
        if b = 0 then .error "ZeroDivisionError" else .ok (Int.fdiv a b)
      else if op = "%" then
        if b = 0 then .error "ZeroDivisionError" else .ok (Int.emod a b)
      else if op = "&" then .ok (Int.land a b)
      else if op = "|" then .ok (Int.lor a b)
      else if op = "^" then .ok (Int.xor a b)
      else if op = "<<" then
        if b < 0 then .error "ValueError" else .ok (a * (2 : Int) ^ b.toNat)
      else if op = ">>" then
        if b < 0 then .error "ValueError" else .ok (Int.fdiv a ((2 : Int) ^ b.toNat))
      else .error "ElaborationError: Cannot evaluate non-constant expression"

/-- Elaborator._get_width. -/
def get_width : Option VRange → Except String BitWidth
  | none => .ok ⟨0, 0⟩
  | some rg => do
      let msb ← eval_const_expr rg.msb
      let lsb ← eval_const_expr rg.lsb
      .ok ⟨msb, lsb⟩

/-- CellOp.name as Python's Enum.name gives it. -/
def opNameStr : CellOp → String
  | .CONST => "CONST"
  | .BUF => "BUF"
  | .NOT => "NOT"
  | .AND => "AND"
  | .OR => "OR"
  | .XOR => "XOR"
  | .NAND => "NAND"
  | .NOR => "NOR"
  | .XNOR => "XNOR"
  | .REDUCE_AND => "REDUCE_AND"
  | .REDUCE_OR => "REDUCE_OR"
  | .REDUCE_XOR => "REDUCE_XOR"
  | .ADD => "ADD"
  | .SUB => "SUB"
  | .MUL => "MUL"
  | .NEG => "NEG"
  | .EQ => "EQ"
  | .NEQ => "NEQ"
  | .LT => "LT"
  | .LE => "LE"
  | .GT => "GT"
  | .GE => "GE"
  | .SHL => "SHL"
  | .SHR => "SHR"
  | .SSHR => "SSHR"
  | .MUX => "MUX"
  | .PMUX => "PMUX"
  | .CONCAT => "CONCAT"
  | .SLICE => "SLICE"
  | .REPEAT => "REPEAT"
  | .DFF => "DFF"
  | .DFFR => "DFFR"
  | .DFFRE => "DFFRE"
  | .DFFS => "DFFS"
  | .MEMRD => "MEMRD"
  | .MEMWR => "MEMWR"
  | .MODULE_INPUT => "MODULE_INPUT"
  | .MODULE_OUTPUT => "MODULE_OUTPUT"

/-- The binary operator table of _elaborate_binary_op. -/
def binOpMap (op : String) : Option CellOp :=
  if op = "&" then some CellOp.AND
  else if op = "|" then some CellOp.OR
  else if op = "^" then some CellOp.XOR
  else if op = "+" then some CellOp.ADD
  else if op = "-" then some CellOp.SUB
  else if op = "*" then some CellOp.MUL
  else if op = "==" then some CellOp.EQ
  else if op = "!=" then some CellOp.NEQ
  else if op = "<" then some CellOp.LT
  else if op = "<=" then some CellOp.LE
  else if op = ">" then some CellOp.GT
  else if op = ">=" then some CellOp.GE
  else if op = "<<" then some CellOp.SHL
  else if op = ">>" then some CellOp.SHR
  else none

/-- Elaborator._elaborate_const: CONST cell plus its freshly driven net. -/
def elaborate_const (st : ESt) (value width : Int) : Except String (Nat × ESt) := do
  let (cid, nl) := freshId st.nl
  let ccell : CellObj := ⟨"const_" ++ toString value, CellOp.CONST, [], [],
    some value, some width⟩
  let nl := { nl with cellH := setA nl.cellH cid ccell }
  let w := BitWidth.from_width width
  let (opid, nl) ← liftO (add_output nl cid "Y" w)
  let nl := add_cell_nl nl cid
  let (nid, nl) := freshId nl
  let nl := { nl with netH := setA nl.netH nid ⟨"_const_" ++ toString cid, w, none, []⟩ }
  let nl ← liftO (set_driver nl nid opid)
  let nl := add_net_nl nl nid
  .ok (nid, { st with nl := nl })

/-- Elaborator._elaborate_expr restricted to the modelled expressions,
together with _elaborate_binary_op. -/
def elaborate_expr (st : ESt) : VExpr → Except String (Nat × ESt)
  | .num v w => elaborate_const st v w
  | .ident nm =>
      match lookupA st.net_map nm with
      | some nid => .ok (nid, st)
      | none => .error ("ElaborationError: Undefined signal: " ++ nm)
  | .binop op l r => do
      match binOpMap op with
      | none => .error ("ElaborationError: Unsupported binary operator: " ++ op)
      | some cop => do
          let (lnid, st) ← elaborate_expr st l
          let (rnid, st) ← elaborate_expr st r
          let lnet ← liftO (lookupA st.nl.netH lnid)
          let rnet ← liftO (lookupA st.nl.netH rnid)
          let (cid, nl) := freshId st.nl
          let bcell : CellObj := ⟨(opNameStr cop).toLower ++ "_" ++ lnet.name ++ "_"
            ++ rnet.name, cop, [], [], none, none⟩
          let nl := { nl with cellH := setA nl.cellH cid bcell }
          let outw : Int :=
            if cop = CellOp.EQ ∨ cop = CellOp.NEQ ∨ cop = CellOp.LT ∨
               cop = CellOp.LE ∨ cop = CellOp.GT ∨ cop = CellOp.GE then 1
            else max lnet.width.width rnet.width.width
          let (apid, nl) ← liftO (add_input nl cid "A" lnet.width)
          let (bpid, nl) ← liftO (add_input nl cid "B" rnet.width)
          let (ypid, nl) ← liftO (add_output nl cid "Y" (BitWidth.from_width outw))
          let nl ← liftO (add_sink nl lnid apid)
          let nl ← liftO (add_sink nl rnid bpid)
          let nl := add_cell_nl nl cid
          let (onid, nl) := freshId nl
          let onet : NetObj := ⟨"_" ++ (opNameStr cop).toLower ++ "_" ++ toString cid,
            BitWidth.from_width outw, none, []⟩
          let nl := { nl with netH := setA nl.netH onid onet }
          let nl ← liftO (set_driver nl onid ypid)
          let nl := add_net_nl nl onid
          .ok (onid, { st with nl := nl })

/-- Create the left-hand-side net of an assignment when absent
(implicit wire declaration). -/
def ensure_lhs_net (st : ESt) (lhs_name : String) : ESt :=
  if (lookupA st.net_map lhs_name).isSome then st
  else
    let (nid, nl) := freshId st.nl
    let nl := { nl with netH := setA nl.netH nid ⟨lhs_name, ⟨0, 0⟩, none, []⟩ }
    let nl := add_net_nl nl nid
    ⟨nl, setA st.net_map lhs_name nid⟩

/-- Elaborator._elaborate_assign: elaborate the RHS, then make its driver
also drive the LHS net (re-pointing the driver pin at the LHS net; the
RHS output net keeps its stale driver reference). -/
def elaborate_assign (st : ESt) (lhs rhs : VExpr) : Except String ESt := do
  match lhs with
  | .ident lhs_name => do
      let st := ensure_lhs_net st lhs_name
      let lhs_nid ← liftO (lookupA st.net_map lhs_name)
      let (rhs_nid, st) ← elaborate_expr st rhs
      let rnet ← liftO (lookupA st.nl.netH rhs_nid)
      match rnet.driver with
      | none => .ok st
      | some dp => do
          let nl ← liftO (set_driver st.nl lhs_nid dp)
          .ok { st with nl := nl }
  | _ => .error "ElaborationError: LHS of assign must be identifier"

/-- Elaborator._elaborate_blocking_assign (combinational always bodies). -/
def elaborate_blocking_assign (st : ESt) (lhs rhs : VExpr) : Except String ESt := do
  match lhs with
  | .ident lhs_name => do
      let st := ensure_lhs_net st lhs_name
      let lhs_nid ← liftO (lookupA st.net_map lhs_name)
      let (rhs_nid, st) ← elaborate_expr st rhs
      let rnet ← liftO (lookupA st.nl.netH rhs_nid)
      match rnet.driver with
      | none => .ok st
      | some dp => do
          let nl ← liftO (set_driver st.nl lhs_nid dp)
          .ok { st with nl := nl }
  | _ => .ok st

/-- Elaborator._create_dff for a non-blocking assignment to an identifier
(memories are outside the modelled subset). -/
def create_dff (st : ESt) (lhs rhs : VExpr) (clk_signal : String)
    (rst_signal : Option String) : Except String ESt := do
  match lhs with
  | .ident reg_name => do
      let cell_op := match rst_signal with
        | some _ => CellOp.DFFR
        | none => CellOp.DFF
      let (cid, nl) := freshId st.nl
      let dcell : CellObj := ⟨"dff_" ++ reg_name, cell_op, [], [], none, none⟩
      let nl := { nl with cellH := setA nl.cellH cid dcell }
      let st : ESt := { st with nl := nl }
      let st :=
        if (lookupA st.net_map reg_name).isSome then st
        else
          let (nid, nl) := freshId st.nl
          let nl := { nl with netH := setA nl.netH nid ⟨reg_name, ⟨0, 0⟩, none, []⟩ }
          let nl := add_net_nl nl nid
          (⟨nl, setA st.net_map reg_name nid⟩ : ESt)
      let reg_nid ← liftO (lookupA st.net_map reg_name)
      let reg_net ← liftO (lookupA st.nl.netH reg_nid)
      let (clk_pid, nl) ← liftO (add_input st.nl cid "CLK" ⟨0, 0⟩)
      let (d_pid, nl) ← liftO (add_input nl cid "D" reg_net.width)
      let (q_pid, nl) ← liftO (add_output nl cid "Q" reg_net.width)
      let st : ESt := { st with nl := nl }
      let st : ESt ← match rst_signal with
        | some rs => do
            let (rst_pid, nl) ← liftO (add_input st.nl cid "RST" ⟨0, 0⟩)
            match lookupA st.net_map rs with
            | some rnid => do
                let nl ← liftO (add_sink nl rnid rst_pid)
                .ok ({ st with nl := nl } : ESt)
            | none => .ok ({ st with nl := nl } : ESt)
        | none => .ok st
      let st : ESt ← match lookupA st.net_map clk_signal with
        | some cnid => do
            let nl ← liftO (add_sink st.nl cnid clk_pid)
            .ok ({ st with nl := nl } : ESt)
        | none => .ok st
      let (rhs_nid, st) ← elaborate_expr st rhs
      let nl ← liftO (add_sink st.nl rhs_nid d_pid)
      let nl ← liftO (set_driver nl reg_nid q_pid)
      let nl := add_cell_nl nl cid
      .ok { st with nl := nl }
  | _ => .ok st

/-- Elaborator._elaborate_sequential_always, using the clock/reset fold
`findClockReset` shared with the C4 analysis. -/
def elaborate_sequential_always (st : ESt) (sens : List SensItem)
    (body : List VStmt) : Except String ESt := do
  let (clk, rst, _) := findClockReset sens
  match clk with
  | none => .error "ElaborationError: Sequential always block must have a clock signal"
  | some c =>
      if c.isEmpty then
        .error "ElaborationError: Sequential always block must have a clock signal"
      else
        body.foldlM (fun st stmt =>
          match stmt with
          | .nonBlocking lhs rhs => create_dff st lhs rhs c rst
          | .blockingStmt _ _ => .ok st) st

/-- Elaborator._elaborate_combinational_always. -/
def elaborate_combinational_always (st : ESt) (body : List VStmt) :
    Except String ESt :=
  body.foldlM (fun st stmt =>
    match stmt with
    | .blockingStmt lhs rhs => elaborate_blocking_assign st lhs rhs
    | .nonBlocking _ _ => .ok st) st

/-- Elaborator._elaborate_always_block. -/
def elaborate_always_block (st : ESt) (sens : List SensItem) (body : List VStmt) :
    Except String ESt :=
  if sens.any (fun s2 => s2.edge = "posedge" ∨ s2.edge = "negedge") then
    elaborate_sequential_always st sens body
  else
    elaborate_combinational_always st body

/-- Elaborator._elaborate_ports. -/
def elaborate_ports (st : ESt) (ports : List VPort) : Except String ESt :=
  ports.foldlM (fun st port => do
    let width ← get_width port.range
    if port.direction = "input" then do
      let (cid, nl) := freshId st.nl
      let icell : CellObj := ⟨port.name, CellOp.MODULE_INPUT, [], [], none, none⟩
      let nl := { nl with cellH := setA nl.cellH cid icell }
      let (opid, nl) ← liftO (add_output nl cid "Y" width)
      let nl := add_cell_nl nl cid
      let nl := { nl with nlInputs := setA nl.nlInputs port.name cid }
      let (nid, nl) := freshId nl
      let nl := { nl with netH := setA nl.netH nid ⟨port.name, width, none, []⟩ }
      let nl ← liftO (set_driver nl nid opid)
      let nl := add_net_nl nl nid
      .ok (⟨nl, setA st.net_map port.name nid⟩ : ESt)
    else if port.direction = "output" then do
      let (cid, nl) := freshId st.nl
      let ocell : CellObj := ⟨port.name, CellOp.MODULE_OUTPUT, [], [], none, none⟩
      let nl := { nl with cellH := setA nl.cellH cid ocell }
      let (_, nl) ← liftO (add_input nl cid "A" width)
      let nl := add_cell_nl nl cid
      let nl := { nl with nlOutputs := setA nl.nlOutputs port.name cid }
      .ok ({ st with nl := nl } : ESt)
    else .ok st) st

/-- Elaborator._elaborate_declarations (memory arrays are outside the
modelled subset). -/
def elaborate_declarations (st : ESt) (body : List VItem) : Except String ESt :=
  body.foldlM (fun st item =>
    match item with
    | .netDecl _ rg name dims => do
        let width ← get_width rg
        match dims with
        | _ :: _ => .error "model: memory arrays not modelled"
        | [] =>
            if (lookupA st.net_map name).isSome then .ok st
            else
              let (nid, nl) := freshId st.nl
              let nl := { nl with netH := setA nl.netH nid ⟨name, width, none, []⟩ }
              let nl := add_net_nl nl nid
              .ok (⟨nl, setA st.net_map name nid⟩ : ESt)
    | _ => .ok st) st

/-- Elaborator.elaborate_module for a parameter-free module. -/
def elaborate_module (m : VModule) : Except String NLState := do
  let st0 : ESt := ⟨emptyNL m.name, []⟩
  let st ← elaborate_ports st0 m.ports
  let st ← elaborate_declarations st m.body
  let st ← m.body.foldlM (fun st item =>
      match item with
      | .contAssign l r => elaborate_assign st l r
      | .alwaysBlock sens body => elaborate_always_block st sens body
      | .netDecl _ _ _ _ => .ok st) st
  .ok st.nl

/-! ## Claims C3 and C6: elaboration results -/

/-- The module of claim C3: `module test(input a, input b, output c);
assign c = a & b; endmodule`. -/
def mC3 : VModule :=
  ⟨"test", [⟨"input", "a", none⟩, ⟨"input", "b", none⟩, ⟨"output", "c", none⟩],
   [.contAssign (.ident "c") (.binop "&" (.ident "a") (.ident "b"))]⟩

set_option synthInstance.maxSize 4096 in
/-- Claim C3 fails on the code: the module elaborates without error, the
net named c is driven by the AND cell's output pin, but the MODULE_OUTPUT
cell registered under c has its single input pin A connected to NO net at
all — the elaborator never attaches output-port pins, so invariant I5 does
not hold.  The ids below are those the model's elaboration run allocates:
cell 7 is the MODULE_OUTPUT with input pin 8, net 9 is the net named c,
pin 13 is the output pin Y of the AND cell 10. -/
theorem elaborate_c3_bug :
    ((elaborate_module mC3).toOption.map (fun nl =>
      (nl.nlOutputs.map (fun (kv : String × Nat) => (lookupA nl.cellH kv.2).map
        (fun (c : CellObj) => (c.op, c.inputs.map (fun (ip : String × Nat) =>
          (lookupA nl.pinH ip.2).map PinObj.netId)))),
       (lookupA nl.netH 9).map (fun (n2 : NetObj) => (n2.name, n2.driver)),
       (lookupA nl.pinH 13).map (fun (p : PinObj) => (p.name, p.cellId)),
       (lookupA nl.cellH 10).map CellObj.op)))
    = some ([some (CellOp.MODULE_OUTPUT, [some none])],
            some ("c", some 13),
            some ("Y", some 10),
            some CellOp.AND) := by
  decide

/-- The module of claim C6: `reg q, d; wire clk;
always @(posedge clk) q <= d;`. -/
def mC6 : VModule :=
  ⟨"test", [],
   [.netDecl "reg" none "q" [], .netDecl "reg" none "d" [],
    .netDecl "wire" none "clk" [],
    .alwaysBlock [⟨"posedge", "clk"⟩] [.nonBlocking (.ident "q") (.ident "d")]]⟩

set_option synthInstance.maxSize 4096 in
/-- Claim C6: elaborating the C6 module yields exactly one cell, a DFF (not
DFFR) with pins named CLK, D, Q; clk's net (net 3, named clk) has the CLK
pin 5 as sink; d's net (net 2) has the D pin 6 as sink; and q's net (net 1)
is driven by the Q pin 7. -/
theorem elaborate_c6_dff :
    ((elaborate_module mC6).toOption.map (fun nl =>
      (nl.nlCells.map (fun cid => (lookupA nl.cellH cid).map
        (fun (c : CellObj) => (c.op, c.inputs.map Prod.fst, c.outputs.map Prod.fst))),
       (lookupA nl.netH 3).map (fun (n2 : NetObj) => (n2.name, n2.sinks)),
       (lookupA nl.pinH 5).map (fun (p : PinObj) => (p.name, p.netId)),
       (lookupA nl.netH 2).map (fun (n2 : NetObj) => (n2.name, n2.sinks)),
       (lookupA nl.pinH 6).map (fun (p : PinObj) => (p.name, p.netId)),
       (lookupA nl.netH 1).map (fun (n2 : NetObj) => (n2.name, n2.driver)),
       (lookupA nl.pinH 7).map (fun (p : PinObj) => (p.name, p.netId)))))
    = some ([some (CellOp.DFF, ["CLK", "D"], ["Q"])],
            some ("clk", [5]), some ("CLK", some 3),
            some ("d", [6]), some ("D", some 2),
            some ("q", some 7), some ("Q", some 1)) := by
  decide

/-! ## Claim C2: constant propagation -/

/-- A netlist for the unit-level part of claim C2: CONST(5) and CONST(3)
drive an ADD whose output net 12 has the BUF input pin 6 as its sink. -/
def c2state : NLState :=
  { pinH := [
      (1, ⟨"Y", PortDir.OUTPUT, ⟨7, 0⟩, some 20, some 10⟩),
      (2, ⟨"Y", PortDir.OUTPUT, ⟨7, 0⟩, some 21, some 11⟩),
      (3, ⟨"A", PortDir.INPUT, ⟨7, 0⟩, some 22, some 10⟩),
      (4, ⟨"B", PortDir.INPUT, ⟨7, 0⟩, some 22, some 11⟩),
      (5, ⟨"Y", PortDir.OUTPUT, ⟨7, 0⟩, some 22, some 12⟩),
      (6, ⟨"A", PortDir.INPUT, ⟨7, 0⟩, some 23, some 12⟩),
      (7, ⟨"Y", PortDir.OUTPUT, ⟨7, 0⟩, some 23, none⟩)],
    netH := [
      (10, ⟨"n5", ⟨7, 0⟩, some 1, [3]⟩),
      (11, ⟨"n3", ⟨7, 0⟩, some 2, [4]⟩),
      (12, ⟨"nadd", ⟨7, 0⟩, some 5, [6]⟩)],
    cellH := [
      (20, ⟨"const_5", CellOp.CONST, [], [("Y", 1)], some 5, none⟩),
      (21, ⟨"const_3", CellOp.CONST, [], [("Y", 2)], some 3, none⟩),
      (22, ⟨"add", CellOp.ADD, [("A", 3), ("B", 4)], [("Y", 5)], none, none⟩),
      (23, ⟨"buf", CellOp.BUF, [("A", 6)], [("Y", 7)], none, none⟩)],
    nlName := "top", nlCells := [20, 21, 22, 23], nlNets := [10, 11, 12],
    nlInputs := [], nlOutputs := [], nextId := 100 }

/-- The module of claim C2's end-to-end part:
`module test(output wire [7:0] result); assign result = 8'd5 + 8'd3;`. -/
def mC2 : VModule :=
  ⟨"test", [⟨"output", "result", some ⟨.num 7 32, .num 0 32⟩⟩],
   [.contAssign (.ident "result") (.binop "+" (.num 5 8) (.num 3 8))]⟩

set_option synthInstance.maxSize 4096 in
/-- Claim C2 fails on the code.  Unit level: on `c2state` the pass does
evaluate the ADD (5+3 = 8 at width 8) and creates the new CONST cell 100
with value 8, but the output net 12 does NOT inherit the sinks — inside
`_replace_with_constant` the call to `remove_cell` deletes net 12 from the
netlist, empties its sinks, nulls its driver and leaves the BUF sink pin 6
with no net; only the new CONST's own pin 101 still points at the deleted
net.  End to end: after a full default optimizer run on the netlist
elaborated from `assign result = 8'd5 + 8'd3;` there is indeed no ADD cell,
but no CONST cell survives either (dead-code elimination removes the
orphaned CONST 8), and result's MODULE_OUTPUT input pin has no net. -/
theorem constant_propagation_c2_bug :
    ((constant_propagation c2state).map (fun r =>
      (r.1,
       decide (100 ∈ r.2.nlCells),
       (lookupA r.2.cellH 100).map (fun (c : CellObj) => (c.op, c.valueAttr)),
       decide (12 ∈ r.2.nlNets),
       (lookupA r.2.netH 12).map (fun (n2 : NetObj) => (n2.driver, n2.sinks)),
       (lookupA r.2.pinH 6).map PinObj.netId,
       (lookupA r.2.pinH 101).map PinObj.netId))
      = some (1, true, some (CellOp.CONST, some 8), false, some (none, []),
              some none, some (some 12))) ∧
    (((elaborate_module mC2).toOption.bind (fun nl => optimize nl none)).map (fun r =>
      (lookupA r.1 "constants_propagated",
       r.2.nlCells.map (fun cid => (lookupA r.2.cellH cid).map CellObj.op),
       r.2.nlOutputs.map (fun (kv : String × Nat) => (lookupA r.2.cellH kv.2).map
         (fun (c : CellObj) => c.inputs.map (fun (ip : String × Nat) =>
           (lookupA r.2.pinH ip.2).map PinObj.netId)))))
      = some (some 1, [some CellOp.MODULE_OUTPUT], [some [some none]])) := by
  refine ⟨by decide, by decide⟩

/-! ## Claim C8: idempotence of the optimizer -/

/-- The C8 counterexample netlist: y1 = OR(x1, c), y2 = OR(x2, c) feeding
the two outputs, with duplicate cells x1 = AND(a, b) and x2 = AND(a, b),
inserted so that the consumers y1, y2 are scanned by CSE before the
duplicates x1, x2. -/
def c8state : NLState :=
  { pinH := [
      (2, ⟨"Y", PortDir.OUTPUT, ⟨0, 0⟩, some 1, some 3⟩),
      (5, ⟨"Y", PortDir.OUTPUT, ⟨0, 0⟩, some 4, some 6⟩),
      (8, ⟨"Y", PortDir.OUTPUT, ⟨0, 0⟩, some 7, some 9⟩),
      (11, ⟨"A", PortDir.INPUT, ⟨0, 0⟩, some 10, some 31⟩),
      (13, ⟨"A", PortDir.INPUT, ⟨0, 0⟩, some 12, some 33⟩),
      (15, ⟨"A", PortDir.INPUT, ⟨0, 0⟩, some 14, some 30⟩),
      (16, ⟨"B", PortDir.INPUT, ⟨0, 0⟩, some 14, some 9⟩),
      (17, ⟨"Y", PortDir.OUTPUT, ⟨0, 0⟩, some 14, some 31⟩),
      (19, ⟨"A", PortDir.INPUT, ⟨0, 0⟩, some 18, some 32⟩),
      (20, ⟨"B", PortDir.INPUT, ⟨0, 0⟩, some 18, some 9⟩),
      (21, ⟨"Y", PortDir.OUTPUT, ⟨0, 0⟩, some 18, some 33⟩),
      (23, ⟨"A", PortDir.INPUT, ⟨0, 0⟩, some 22, some 3⟩),
      (24, ⟨"B", PortDir.INPUT, ⟨0, 0⟩, some 22, some 6⟩),
      (25, ⟨"Y", PortDir.OUTPUT, ⟨0, 0⟩, some 22, some 30⟩),
      (27, ⟨"A", PortDir.INPUT, ⟨0, 0⟩, some 26, some 3⟩),
      (28, ⟨"B", PortDir.INPUT, ⟨0, 0⟩, some 26, some 6⟩),
      (29, ⟨"Y", PortDir.OUTPUT, ⟨0, 0⟩, some 26, some 32⟩)],
    netH := [
      (3, ⟨"a", ⟨0, 0⟩, some 2, [23, 27]⟩),
      (6, ⟨"b", ⟨0, 0⟩, some 5, [24, 28]⟩),
      (9, ⟨"c", ⟨0, 0⟩, some 8, [16, 20]⟩),
      (30, ⟨"x1", ⟨0, 0⟩, some 25, [15]⟩),
      (31, ⟨"y1", ⟨0, 0⟩, some 17, [11]⟩),
      (32, ⟨"x2", ⟨0, 0⟩, some 29, [19]⟩),
      (33, ⟨"y2", ⟨0, 0⟩, some 21, [13]⟩)],
    cellH := [
      (1, ⟨"a", CellOp.MODULE_INPUT, [], [("Y", 2)], none, none⟩),
      (4, ⟨"b", CellOp.MODULE_INPUT, [], [("Y", 5)], none, none⟩),
      (7, ⟨"c", CellOp.MODULE_INPUT, [], [("Y", 8)], none, none⟩),
      (10, ⟨"o1", CellOp.MODULE_OUTPUT, [("A", 11)], [], none, none⟩),
      (12, ⟨"o2", CellOp.MODULE_OUTPUT, [("A", 13)], [], none, none⟩),
      (14, ⟨"y1", CellOp.OR, [("A", 15), ("B", 16)], [("Y", 17)], none, none⟩),
      (18, ⟨"y2", CellOp.OR, [("A", 19), ("B", 20)], [("Y", 21)], none, none⟩),
      (22, ⟨"x1", CellOp.AND, [("A", 23), ("B", 24)], [("Y", 25)], none, none⟩),
      (26, ⟨"x2", CellOp.AND, [("A", 27), ("B", 28)], [("Y", 29)], none, none⟩)],
    nlName := "top",
    nlCells := [1, 4, 7, 10, 12, 14, 18, 22, 26],
    nlNets := [3, 6, 9, 30, 31, 32, 33],
    nlInputs := [("a", 1), ("b", 4), ("c", 7)],
    nlOutputs := [("o1", 10), ("o2", 12)],
    nextId := 100 }

set_option synthInstance.maxSize 4096 in
/-- Counterexample to claim C8: on `c8state` the first full default run
merges x2 into x1 (one CSE elimination), which makes y1 and y2 signature
equal; the second full run then reports common_subexprs_eliminated = 1, so
not every counter of the second run's statistics is zero. -/
theorem optimize_c8_counterexample :
    ((optimize c8state none).bind (fun r => optimize r.2 none)).map Prod.fst
      = some [("identities_eliminated", 0), ("algebraic_simplified", 0),
              ("constants_propagated", 0), ("strength_reduced", 0),
              ("dead_cells_removed", 0), ("common_subexprs_eliminated", 1)] ∧
    ((optimize c8state none).bind (fun r => optimize r.2 none)).map
        (fun r => decide (∀ kv ∈ r.1, kv.2 = 0))
      = some false := by
  refine ⟨by decide, by decide⟩

theorem constant_propagation_loop_fix (fuel : Nat) :
    ∀ (s : NLState) (acc n : Nat) (s2 : NLState),
    constant_propagation_loop fuel s acc = some (n, s2) →
    scan_const_cells s2 s2.nlCells = some [] := by
  induction fuel with
  | zero =>
      intro s acc n s2 h
      simp [constant_propagation_loop] at h
  | succ fuel ih =>
      intro s acc n s2 h
      simp only [constant_propagation_loop, Option.bind_eq_bind] at h
      cases hscan : scan_const_cells s s.nlCells with
      | none => rw [hscan] at h; simp at h
      | some repls =>
          rw [hscan] at h
          simp only [Option.some_bind] at h
          match repls, h with
          | [], h =>
              simp at h
              obtain ⟨_, hs⟩ := h
              subst hs
              exact hscan
          | pr :: rest, h =>
              simp only [Option.bind_eq_bind] at h
              cases hfold : (pr :: rest).foldlM
                  (fun st pr2 => replace_with_constant st pr2.1 pr2.2) s with
              | none => rw [hfold] at h; simp at h
              | some s3 =>
                  rw [hfold] at h
                  simp only [Option.some_bind] at h
                  exact ih s3 _ n s2 h

set_option synthInstance.maxSize 4096 in
/-- Claim C8, amended to what holds of the code.  The constant-propagation
pass IS idempotent: it loops internally until a scan finds nothing, so an
immediate second run reports zero.  The full default pipeline is not: its
final, single-sweep CSE pass can expose new duplicates that only the next
run merges.  On the counterexample netlist the second run reports exactly
one CSE elimination and zero for every other counter, and the third run
reports zero everywhere. -/
theorem optimize_c8_amended :
    (∀ (s s2 : NLState) (n : Nat), constant_propagation s = some (n, s2) →
      constant_propagation s2 = some (0, s2)) ∧
    (((optimize c8state none).bind (fun r => optimize r.2 none)).map Prod.fst
      = some [("identities_eliminated", 0), ("algebraic_simplified", 0),
              ("constants_propagated", 0), ("strength_reduced", 0),
              ("dead_cells_removed", 0), ("common_subexprs_eliminated", 1)] ∧
     ((optimize c8state none).bind (fun r => optimize r.2 none)).bind
        (fun r => (optimize r.2 none).map (fun r3 => decide (∀ kv ∈ r3.1, kv.2 = 0)))
      = some true) := by
  refine ⟨?_, by decide, by decide⟩
  intro s s2 n h
  have hscan := constant_propagation_loop_fix (s.nlCells.length + 1) s 0 n s2 h
  show constant_propagation_loop (s2.nlCells.length + 1) s2 0 = some (0, s2)
  simp [constant_propagation_loop, hscan]

/-- Witness for the amended claim C8: on `c2state` the first
constant-propagation run reports one replacement, and the second run, by
the amended theorem, reports zero. -/
theorem optimize_c8_witness :
    ((constant_propagation c2state).map Prod.fst = some 1) ∧
    ((constant_propagation c2state).bind
        (fun r => constant_propagation r.2)).map Prod.fst = some 0 := by
  refine ⟨by decide, ?_⟩
  cases hcp : constant_propagation c2state with
  | none =>
      have hs : (constant_propagation c2state).isSome := by decide
      rw [hcp] at hs
      simp at hs
  | some r =>
      have h2 := optimize_c8_amended.1 c2state r.2 r.1 (by rw [hcp])
      simp [h2]

/-! ## Claim C9: analyzer combinational depth -/

/-- NetlistAnalyzer.critical_path_depth's inner visit(cell, memo), with a
recursion-depth fuel.  `none` means the Python call has not returned within
`fuel` nested calls (or a heap lookup failed, which cannot happen on the
states considered here).  Faithful to the source: the memo entry for the
visited cell is written only AFTER the recursive calls into the drivers of
its input pins return, even for sequential cells. -/
def visitF (s : NLState) : Nat → Nat → List (Nat × Nat) → Option (Nat × List (Nat × Nat))
  | 0, _, _ => none
  | fuel + 1, cid, memo =>
      match lookupA memo cid with
      | some d => some (d, memo)
      | none =>
          if cid ∈ s.nlInputs.map Prod.snd then some (0, setA memo cid 0)
          else do
            let cell ← lookupA s.cellH cid
            let r ← cell.inputs.foldlM
                (fun (acc : Nat × List (Nat × Nat)) (ip : String × Nat) => do
                  let pin ← lookupA s.pinH ip.2
                  match pin.netId with
                  | none => some acc
                  | some nid => do
                      let net ← lookupA s.netH nid
                      match net.driver with
                      | none => some acc
                      | some dp => do
                          let dpin ← lookupA s.pinH dp
                          match dpin.cellId with
                          | none => some acc
                          | some dcid => do
                              let dm ← visitF s fuel dcid acc.2
                              some (max acc.1 dm.1, dm.2)) (0, memo)
            if cell.op = CellOp.DFF ∨ cell.op = CellOp.DFFR ∨
               cell.op = CellOp.DFFRE ∨ cell.op = CellOp.DFFS then
              some (0, setA r.2 cid 0)
            else
              some (r.1 + 1, setA r.2 cid (r.1 + 1))

/-- NetlistAnalyzer.critical_path_depth: seed the memo with depth 0 for
every primary input, then visit every cell of the netlist. -/
def critical_path_depth (s : NLState) (fuel : Nat) : Option (List (Nat × Nat)) :=
  let init := s.nlInputs.foldl (fun m (kv : String × Nat) => setA m kv.2 0) []
  s.nlCells.foldlM (fun m cid => (visitF s fuel cid m).map Prod.snd) init

/-- The C9 counterexample netlist: a DFF (cell 1, unconnected CLK) whose Q
output feeds a NOT (cell 5) whose output feeds back into the DFF's D input
- a feedback loop closed through a sequential cell, whose combinational
subgraph is acyclic. -/
def c9state : NLState :=
  { pinH := [
      (2, ⟨"CLK", PortDir.INPUT, ⟨0, 0⟩, some 1, none⟩),
      (3, ⟨"D", PortDir.INPUT, ⟨0, 0⟩, some 1, some 10⟩),
      (4, ⟨"Q", PortDir.OUTPUT, ⟨0, 0⟩, some 1, some 11⟩),
      (6, ⟨"A", PortDir.INPUT, ⟨0, 0⟩, some 5, some 11⟩),
      (7, ⟨"Y", PortDir.OUTPUT, ⟨0, 0⟩, some 5, some 10⟩)],
    netH := [
      (10, ⟨"d_in", ⟨0, 0⟩, some 7, [3]⟩),
      (11, ⟨"q", ⟨0, 0⟩, some 4, [6]⟩)],
    cellH := [
      (1, ⟨"dff_q", CellOp.DFF, [("CLK", 2), ("D", 3)], [("Q", 4)], none, none⟩),
      (5, ⟨"inv", CellOp.NOT, [("A", 6)], [("Y", 7)], none, none⟩)],
    nlName := "top", nlCells := [1, 5], nlNets := [10, 11],
    nlInputs := [], nlOutputs := [], nextId := 100 }

theorem visitF_c9_loop (n : Nat) :
    visitF c9state n 1 [] = none ∧ visitF c9state n 5 [] = none := by
  induction n with
  | zero => exact ⟨rfl, rfl⟩
  | succ n ih =>
      constructor
      · have h5 : ∀ (a : Nat) (b : List (Nat × Nat)),
            visitF c9state n 5 [] = some (a, b) → False := by
          simp [ih.2]
        simp [visitF, c9state, lookupA, List.foldlM]
        exact h5
      · have h1 : ∀ (a : Nat) (b : List (Nat × Nat)),
            visitF c9state n 1 [] = some (a, b) → False := by
          simp [ih.1]
        simp [visitF, c9state, lookupA, List.foldlM]
        exact h1

/-- Claim C9 fails on the code: on the DFF feedback loop `c9state` (whose
combinational subgraph is acyclic - the only cycle runs through the DFF)
the depth computation never terminates.  `visit` memoizes a sequential
cell's depth 0 only after recursing into the drivers of its inputs, so
visiting the DFF recurses into the NOT, which recurses back into the
still-unmemoized DFF, forever: for every recursion-depth budget the
fuel-model returns `none`, both for a single visit of the DFF and for the
whole critical_path_depth map. -/
theorem critical_path_depth_c9_bug :
    (∀ n, visitF c9state n 1 [] = none) ∧
    (∀ n, critical_path_depth c9state n = none) := by
  refine ⟨fun n => (visitF_c9_loop n).1, fun n => ?_⟩
  have h1 := (visitF_c9_loop n).1
  show ((visitF c9state n 1 []).map Prod.snd).bind
      (fun m => ((visitF c9state n 5 m).map Prod.snd).bind fun m2 => some m2) = none
  rw [h1]
  rfl

/-! ## Claim C1: the lexer

Model of src/hdl_parser/lexer.py over src/hdl_parser/tokens.py.  The
TokenType enum below has exactly the members tokens.py declares; the
lexer's attribute branches and its TWO_CHAR operator table also refer to
ATTR_BEGIN, ATTR_END, ARROW, PLUSCOLON and MINUSCOLON, which tokens.py
does NOT declare, so evaluating those references raises AttributeError -
modelled by the `attributeError` outcome carrying the missing member's
name.  The TWO_CHAR dict literal is (re)built on every pass through the
operator arm of the tokenize loop, BEFORE the membership test, so reaching
that arm always raises AttributeError: ARROW (the first missing member in
the dict display); the two-character and one-character operator lookups
and the final LexerError are dead code. -/

/-- The members of tokens.py's TokenType enum, exactly. -/
inductive TokenType
  | NUMBER | STRING | IDENT
  | MODULE | ENDMODULE | INPUT | OUTPUT | INOUT | WIRE | REG
  | PARAMETER | LOCALPARAM | ASSIGN | ALWAYS | BEGIN | END
  | IF | ELSE | CASE | CASEX | CASEZ | ENDCASE | DEFAULT
  | FOR | GENERATE | ENDGENERATE | GENVAR
  | POSEDGE | NEGEDGE | SIGNED | INTEGER
  | PLUS | MINUS | STAR | SLASH | PERCENT | AMP | PIPE | CARET
  | TILDE | BANG | LSHIFT | RSHIFT | ARSHIFT | LAND | LOR
  | EQ | NEQ | LT | LE | GT | GE
  | QUESTION | COLON | AT | HASH
  | LPAREN | RPAREN | LBRACKET | RBRACKET | LBRACE | RBRACE
  | SEMICOLON | COMMA | DOT | ASSIGN_OP
  | ATAT | STARPAREN
  | EOF
deriving DecidableEq

/-- tokens.py Token dataclass. -/
structure Token where
  type : TokenType
  value : String
  line : Nat
  col : Nat
deriving DecidableEq

/-- tokens.py KEYWORDS table. -/
def KEYWORDS : List (String × TokenType) :=
  [("module", .MODULE), ("endmodule", .ENDMODULE), ("input", .INPUT),
   ("output", .OUTPUT), ("inout", .INOUT), ("wire", .WIRE), ("reg", .REG),
   ("parameter", .PARAMETER), ("localparam", .LOCALPARAM),
   ("assign", .ASSIGN), ("always", .ALWAYS), ("begin", .BEGIN),
   ("end", .END), ("if", .IF), ("else", .ELSE), ("case", .CASE),
   ("casex", .CASEX), ("casez", .CASEZ), ("endcase", .ENDCASE),
   ("default", .DEFAULT), ("for", .FOR), ("generate", .GENERATE),
   ("endgenerate", .ENDGENERATE), ("genvar", .GENVAR),
   ("posedge", .POSEDGE), ("negedge", .NEGEDGE), ("signed", .SIGNED),
   ("integer", .INTEGER)]

/-- A Python exception escaping the lexer: LexerError(line, col, msg),
AttributeError on a missing TokenType member, or IndexError from
_advance past the end.  `fuelOut` is the model's own out-of-budget
marker, not a Python outcome. -/
inductive PyErr
  | lexerError (msg : String) (line col : Nat)
  | attributeError (nm : String)
  | indexError
  | fuelOut
deriving DecidableEq

/-- Lexer state: source characters, position, 1-based line and column,
and the in_attribute flag. -/
structure LexSt where
  src : List Char
  pos : Nat
  line : Nat
  col : Nat
  inAttr : Bool
deriving DecidableEq

/-- Lexer._peek(offset): the character at pos+offset, NUL past the end. -/
def peekL (s : LexSt) (off : Nat) : Char :=
  s.src.getD (s.pos + off) (Char.ofNat 0)

/-- Lexer._at_end. -/
def atEndL (s : LexSt) : Bool := decide (s.src.length ≤ s.pos)

/-- Lexer._advance: IndexError when already at the end. -/
def advanceL (s : LexSt) : Except PyErr (Char × LexSt) :=
  if s.pos < s.src.length then
    let ch := s.src.getD s.pos (Char.ofNat 0)
    if ch = Char.ofNat 10 then
      .ok (ch, { s with pos := s.pos + 1, line := s.line + 1, col := 1 })
    else
      .ok (ch, { s with pos := s.pos + 1, col := s.col + 1 })
  else .error .indexError

/-- Python str.isdigit for the ASCII sources considered. -/
def pyIsAlphaC (c : Char) : Bool :=
  decide ((65 ≤ c.toNat ∧ c.toNat ≤ 90) ∨ (97 ≤ c.toNat ∧ c.toNat ≤ 122))

/-- The `while not at_end and peek != newline` skip loop (line comments
and compiler directives). -/
def skipToEol : Nat → LexSt → Except PyErr LexSt
  | 0, _ => .error .fuelOut
  | fuel + 1, s =>
      if !atEndL s && !(peekL s 0 = Char.ofNat 10) then do
        let r ← advanceL s
        skipToEol fuel r.2
      else .ok s

/-- The block-comment skip loop: stop after star-slash or at the end. -/
def skipBlock : Nat → LexSt → Except PyErr LexSt
  | 0, _ => .error .fuelOut
  | fuel + 1, s =>
      if !atEndL s then
        if peekL s 0 = Char.ofNat 42 && peekL s 1 = Char.ofNat 47 then do
          let r1 ← advanceL s
          let r2 ← advanceL r1.2
          .ok r2.2
        else do
          let r ← advanceL s
          skipBlock fuel r.2
      else .ok s

/-- Lexer._skip_whitespace_and_comments. -/
def skip_whitespace_and_comments : Nat → LexSt → Except PyErr LexSt
  | 0, _ => .error .fuelOut
  | fuel + 1, s =>
      if atEndL s then .ok s
      else
        let ch := peekL s 0
        if ch = Char.ofNat 32 || ch = Char.ofNat 9 || ch = Char.ofNat 13 ||
           ch = Char.ofNat 10 then do
          let r ← advanceL s
          skip_whitespace_and_comments fuel r.2
        else if ch = Char.ofNat 47 && peekL s 1 = Char.ofNat 47 then do
          let s2 ← skipToEol fuel s
          skip_whitespace_and_comments fuel s2
        else if ch = Char.ofNat 47 && peekL s 1 = Char.ofNat 42 then do
          let r1 ← advanceL s
          let r2 ← advanceL r1.2
          let s3 ← skipBlock fuel r2.2
          skip_whitespace_and_comments fuel s3
        else if ch = Char.ofNat 96 then do
          let s2 ← skipToEol fuel s
          skip_whitespace_and_comments fuel s2
        else .ok s

/-- The `while isdigit or underscore` accumulation loops of _read_number. -/
def readDigitsUnd : Nat → LexSt → String → Except PyErr (String × LexSt)
  | 0, _, _ => .error .fuelOut
  | fuel + 1, s, acc =>
      if !atEndL s && (pyIsDigit (peekL s 0) || peekL s 0 = Char.ofNat 95) then do
        let r ← advanceL s
        readDigitsUnd fuel r.2 (acc.push r.1)
      else .ok (acc, s)

/-- The digit characters accepted after a base letter. -/
def baseDigitChars : List Char := "0123456789abcdefABCDEFxXzZ_".toList

/-- The digit-accumulation loop of the sized-literal branch. -/
def readBaseDigits : Nat → LexSt → String → Except PyErr (String × LexSt)
  | 0, _, _ => .error .fuelOut
  | fuel + 1, s, acc =>
      if !atEndL s && baseDigitChars.contains (peekL s 0) then do
        let r ← advanceL s
        readBaseDigits fuel r.2 (acc.push r.1)
      else .ok (acc, s)

/-- Lexer._read_number. -/
def read_number (fuel : Nat) (s : LexSt) : Except PyErr (Token × LexSt) := do
  let startLine := s.line
  let startCol := s.col
  let (num1, s1) ← readDigitsUnd fuel s ""
  if !atEndL s1 && peekL s1 0 = Char.ofNat 39 then do
    let r ← advanceL s1
    let num2 := num1.push r.1
    if !atEndL r.2 && ['b', 'h', 'd', 'o'].contains (peekL r.2 0).toLower then do
      let rb ← advanceL r.2
      let (num3, s4) ← readBaseDigits fuel rb.2 (num2.push rb.1)
      .ok (⟨.NUMBER, num3, startLine, startCol⟩, s4)
    else
      .ok (⟨.NUMBER, num2, startLine, startCol⟩, r.2)
  else do
    let (num2, s2) ←
      if !atEndL s1 && peekL s1 0 = Char.ofNat 46 then do
        let r ← advanceL s1
        readDigitsUnd fuel r.2 (num1.push r.1)
      else pure (num1, s1)
    let (num3, s3) ←
      if !atEndL s2 && (peekL s2 0).toLower = Char.ofNat 101 then do
        let r ← advanceL s2
        let (numSg, sSg) ←
          if !atEndL r.2 && (peekL r.2 0 = Char.ofNat 43 || peekL r.2 0 = Char.ofNat 45) then do
            let r2 ← advanceL r.2
            pure ((num2.push r.1).push r2.1, r2.2)
          else pure (num2.push r.1, r.2)
        readDigitsUnd fuel sSg numSg
      else pure (num2, s2)
    .ok (⟨.NUMBER, num3, startLine, startCol⟩, s3)

/-- The identifier-accumulation loop of _read_ident_or_keyword. -/
def readIdentChars : Nat → LexSt → String → Except PyErr (String × LexSt)
  | 0, _, _ => .error .fuelOut
  | fuel + 1, s, acc =>
      if !atEndL s && (pyIsAlphaC (peekL s 0) || pyIsDigit (peekL s 0) ||
          peekL s 0 = Char.ofNat 95 || peekL s 0 = Char.ofNat 36) then do
        let r ← advanceL s
        readIdentChars fuel r.2 (acc.push r.1)
      else .ok (acc, s)

/-- Lexer._read_ident_or_keyword. -/
def read_ident_or_keyword (fuel : Nat) (s : LexSt) : Except PyErr (Token × LexSt) := do
  let startLine := s.line
  let startCol := s.col
  let (idt, s1) ← readIdentChars fuel s ""
  let tt := (lookupA KEYWORDS idt).getD TokenType.IDENT
  .ok (⟨tt, idt, startLine, startCol⟩, s1)

/-- The string-literal body loop, handling escapes; the second _advance
after a backslash is the one that can raise IndexError at the end. -/
def readStringBody : Nat → LexSt → String → Except PyErr (String × LexSt)
  | 0, _, _ => .error .fuelOut
  | fuel + 1, s, acc =>
      if !atEndL s && !(peekL s 0 = Char.ofNat 34) then
        if peekL s 0 = Char.ofNat 92 then do
          let _ ← advanceL s
          let rc ← advanceL ((advanceL s).toOption.map Prod.snd |>.getD s)
          readStringBody fuel rc.2 (acc.push rc.1)
        else do
          let r ← advanceL s
          readStringBody fuel r.2 (acc.push r.1)
      else .ok (acc, s)

/-- Lexer.tokenize's main loop. -/
def tokenizeLoop : Nat → LexSt → List Token → Except PyErr (List Token)
  | 0, _, _ => .error .fuelOut
  | fuel + 1, s0, toks => do
      let s ← skip_whitespace_and_comments fuel s0
      if atEndL s then .ok (toks ++ [⟨.EOF, "", s.line, s.col⟩])
      else
        let ch := peekL s 0
        let startLine := s.line
        let startCol := s.col
        if pyIsDigit ch then do
          let (t, s2) ← read_number fuel s
          tokenizeLoop fuel s2 (toks ++ [t])
        else if ch = Char.ofNat 39 && ['b', 'h', 'd', 'o'].contains (peekL s 1).toLower then do
          let (t, s2) ← read_number fuel s
          tokenizeLoop fuel s2 (toks ++ [t])
        else if pyIsAlphaC ch || ch = Char.ofNat 95 || ch = Char.ofNat 36 then do
          let (t, s2) ← read_ident_or_keyword fuel s
          tokenizeLoop fuel s2 (toks ++ [t])
        else if ch = Char.ofNat 34 then do
          let r ← advanceL s
          let (sv, s3) ← readStringBody fuel r.2 ""
          let s4 ← (if !atEndL s3 then do
              let rq ← advanceL s3
              pure rq.2
            else pure s3)
          tokenizeLoop fuel s4 (toks ++ [⟨.STRING, sv, startLine, startCol⟩])
        else
          let ch2 := if s.pos + 1 < s.src.length then String.mk [ch, peekL s 1]
                     else String.mk [ch]
          let ch3 := if s.pos + 2 < s.src.length then ch2.push (peekL s 2) else ch2
          let ch3c := if s.pos + 2 < s.src.length then ch2.push (peekL s 2) else ""
          if ch2 = String.mk [Char.ofNat 40, Char.ofNat 42] &&
             !(ch3c = String.mk [Char.ofNat 40, Char.ofNat 42, Char.ofNat 41]) then
            .error (.attributeError "ATTR_BEGIN")
          else if ch2 = String.mk [Char.ofNat 42, Char.ofNat 41] && s.inAttr then
            .error (.attributeError "ATTR_END")
          else if ch3 = ">>>" then do
            let r1 ← advanceL s
            let r2 ← advanceL r1.2
            let r3 ← advanceL r2.2
            tokenizeLoop fuel r3.2 (toks ++ [⟨.ARSHIFT, ">>>", startLine, startCol⟩])
          else
            .error (.attributeError "ARROW")

/-- Lexer.tokenize / lex: the fuel is generous, every loop strictly
advances the position. -/
def tokenize (source : String) : Except PyErr (List Token) :=
  tokenizeLoop (source.length + 2) ⟨source.toList, 0, 1, 1, false⟩ []

/-- Claim C1 fails on the code.  tokens.py declares no ARROW, PLUSCOLON,
MINUSCOLON, ATTR_BEGIN or ATTR_END members, yet tokenize references them:
the TWO_CHAR dict is rebuilt, and its TokenType.ARROW entry evaluated, on
every pass through the operator arm, so lexing the accepted-subset program
"module m; endmodule" raises AttributeError (at the semicolon) instead of
returning a token list - and the error is an AttributeError, not the
LexerError the spec allows.  Lexing "(*" raises AttributeError: ATTR_BEGIN
from the attribute branch.  Only sources with no punctuation at all lex to
an EOF-terminated list, e.g. "module m". -/
theorem tokenize_c1_bug :
    tokenize "module m; endmodule" = .error (.attributeError "ARROW") ∧
    tokenize "(*" = .error (.attributeError "ATTR_BEGIN") ∧
    tokenize "module m" = .ok
      [⟨TokenType.MODULE, "module", 1, 1⟩, ⟨TokenType.IDENT, "m", 1, 8⟩,
       ⟨TokenType.EOF, "", 1, 9⟩] := by
  refine ⟨rfl, rfl, rfl⟩

end Spec2Proof
